import Mathlib

/-!
Verification of the mcp-inspector core against its specification.

The TypeScript sources are embedded shallowly: JSON values become an
inductive `Json`; JavaScript records become association lists where a later
binding overrides an earlier one; `JSON.parse` (an external platform
function) is an oracle parameter; nondeterministic inputs (`Date.now()`,
`randomUUID()`, LLM replies, tool-call results) are explicit arguments.
-/

namespace MCPInspector

/-- JSON values as manipulated by the TypeScript sources.  Numbers are
modelled as integers (the code compares and prints them only at integral
values).  `jobj` keeps fields in insertion order, as JavaScript objects do. -/
inductive Json where
  | jnull
  | jbool (b : Bool)
  | jnum (n : Int)
  | jstr (s : String)
  | jarr (items : List Json)
  | jobj (fields : List (String × Json))

/-- Property lookup on a JavaScript object or `Map`: first binding of the
key (objects and maps hold each key once). -/
def lookupKey {α β : Type} [BEq α] (l : List (α × β)) (k : α) : Option β :=
  (l.find? (fun p => p.1 == k)).map (fun p => p.2)

/-- `Map.set` / object-field assignment: replace the value in place when the
key exists (keeping its position), otherwise append the new binding. -/
def setKey {α β : Type} [BEq α] (l : List (α × β)) (k : α) (v : β) : List (α × β) :=
  if l.any (fun p => p.1 == k) then
    l.map (fun p => if p.1 == k then (k, v) else p)
  else l ++ [(k, v)]

/-- Reading a key from a record built by a sequence of writes: the last
write wins (JavaScript assignment semantics). -/
def readBack (l : List (String × Json)) (k : String) : Option Json :=
  match l with
  | [] => none
  | p :: rest =>
    match readBack rest k with
    | some v => some v
    | none => if p.1 == k then some p.2 else none

/-- A value the flattener records directly instead of recursing into:
anything that is not a non-null object (`typeof value === "object" &&
value !== null` is false). -/
def Json.isLeaf : Json → Bool
  | .jobj _ => false
  | .jarr _ => false
  | _ => true

/-- One character of `JSON.stringify` string escaping. -/
def escapeJsonChar (c : Char) : String :=
  if c = '"' then "\\\""
  else if c = '\\' then "\\\\"
  else if c = '\n' then "\\n"
  else if c = '\t' then "\\t"
  else if c = '\r' then "\\r"
  else String.singleton c

/-- `JSON.stringify` escaping of a string body. -/
def escapeJson (s : String) : String :=
  s.data.foldl (fun acc c => acc ++ escapeJsonChar c) ""

mutual

/-- `JSON.stringify` (no indentation), as used by the Gemini client's
fallback tool selection. -/
def jsonStringify : Json → String
  | .jnull => "null"
  | .jbool true => "true"
  | .jbool false => "false"
  | .jnum n => toString n
  | .jstr s => "\"" ++ escapeJson s ++ "\""
  | .jarr items => "[" ++ stringifyArr items ++ "]"
  | .jobj fields => "\x7b" ++ stringifyFields fields ++ "\x7d"

/-- Comma-separated serialization of array elements. -/
def stringifyArr : List Json → String
  | [] => ""
  | [x] => jsonStringify x
  | x :: rest => jsonStringify x ++ "," ++ stringifyArr rest

/-- Comma-separated serialization of object fields. -/
def stringifyFields : List (String × Json) → String
  | [] => ""
  | [(k, v)] => "\"" ++ escapeJson k ++ "\":" ++ jsonStringify v
  | (k, v) :: rest =>
    "\"" ++ escapeJson k ++ "\":" ++ jsonStringify v ++ "," ++ stringifyFields rest

end

/-- Does the second list occur at the head of the first list's argument? -/
def leadsWith : List Char → List Char → Bool
  | [], _ => true
  | _ :: _, [] => false
  | c :: cs, d :: ds => c == d && leadsWith cs ds

/-- Helper for substring search over character lists. -/
def inclAux (pat : List Char) : List Char → Bool
  | [] => pat.isEmpty
  | s@(_ :: rest) => leadsWith pat s || inclAux pat rest

/-- JavaScript `s.includes(pat)`. -/
def strIncludes (s pat : String) : Bool :=
  inclAux pat.data s.data

/-- ASCII lower-casing of one character (the field names compared by the
code are ASCII). -/
def charLower (c : Char) : Char :=
  if 'A' ≤ c && c ≤ 'Z' then Char.ofNat (c.toNat + 32) else c

/-- JavaScript `s.toLowerCase()` over ASCII. -/
def strLower (s : String) : String :=
  ⟨s.data.map charLower⟩

/-- JavaScript `s.endsWith(suf)`. -/
def strEndsWith (s suf : String) : Bool :=
  leadsWith suf.data.reverse s.data.reverse

/-- JavaScript `s.split(sep)` for a one-character separator: always returns
at least one (possibly empty) group. -/
def splitOnChar (sep : Char) : List Char → List (List Char)
  | [] => [[]]
  | c :: rest =>
    match splitOnChar sep rest with
    | [] => [[]]
    | g :: gs => if c == sep then [] :: g :: gs else (c :: g) :: gs

/-- `String(source).split(".")[0]`: the token before the first dot. -/
def splitDotHead (s : String) : String :=
  ⟨(splitOnChar '.' s.data).headD []⟩

example : strIncludes "hello" "ell" = true := by decide
example : strIncludes "hello" "elo" = false := by decide
example : jsonStringify (.jobj [("id", .jnum 1)]) = "\x7b\"id\":1\x7d" := by decide

/-! ## Resource Indexer (`resourceIndexer.ts`) -/

/-- Hexadecimal digit, case-insensitive (`[0-9a-f]` under the `i` flag). -/
def isHexDigit (c : Char) : Bool :=
  c.isDigit || ('a' ≤ c && c ≤ 'f') || ('A' ≤ c && c ≤ 'F')

/-- `PATTERNS.uuid`: `^[0-9a-f]{8}-[0-9a-f]{4}-[1-5][0-9a-f]{3}-[89ab][0-9a-f]{3}-[0-9a-f]{12}$/i`.
Encoded positionally: 36 characters, dashes at indices 8, 13, 18, 23, a
version digit `[1-5]` at index 14, a variant `[89ab]` (case-insensitive) at
index 19 and hex digits elsewhere. -/
def uuidTest (s : String) : Bool :=
  let cs := s.data
  s.length == 36 &&
    ((List.range 36).all fun i =>
      match cs[i]? with
      | none => false
      | some c =>
        if i == 8 || i == 13 || i == 18 || i == 23 then c == '-'
        else if i == 14 then '1' ≤ c && c ≤ '5'
        else if i == 19 then
          c == '8' || c == '9' || c == 'a' || c == 'b' || c == 'A' || c == 'B'
        else isHexDigit c)

/-- `PATTERNS.numeric`: `^[0-9]{3,}$`. -/
def numericTest (s : String) : Bool :=
  decide (3 ≤ s.length) && s.data.all Char.isDigit

/-- Character class `[\w\-\/]` of `PATTERNS.path`. -/
def isPathChar (c : Char) : Bool :=
  c.isAlphanum || c == '_' || c == '-' || c == '/'

/-- `PATTERNS.path`: `^\/[\w\-\/]+$`. -/
def pathTest (s : String) : Bool :=
  match s.data with
  | '/' :: rest => !rest.isEmpty && rest.all isPathChar
  | _ => false

/-- `PATTERNS.slug`: `^[a-z0-9]+[-_][a-z0-9]+[-_a-z0-9]*$/i`.  A match is a
maximal alphanumeric block, then `-` or `_`, then an alphanumeric character
followed by any mix of alphanumerics, `-` and `_`. -/
def slugTest (s : String) : Bool :=
  match s.data.span Char.isAlphanum with
  | (p, sep :: b :: rest) =>
    !p.isEmpty && (sep == '-' || sep == '_') && b.isAlphanum &&
      rest.all (fun c => c.isAlphanum || c == '-' || c == '_')
  | _ => false

/-- Character class `[a-z0-9-]` of `PATTERNS.atlassianAri`. -/
def isAriChar (c : Char) : Bool :=
  ('a' ≤ c && c ≤ 'z') || c.isDigit || c == '-'

/-- `PATTERNS.atlassianAri`: `^ari:cloud:[a-z]+::[a-z0-9-]+\/[a-z0-9-]+$`. -/
def ariTest (s : String) : Bool :=
  match s.data with
  | 'a' :: 'r' :: 'i' :: ':' :: 'c' :: 'l' :: 'o' :: 'u' :: 'd' :: ':' :: rest =>
    (match rest.span (fun c => 'a' ≤ c && c ≤ 'z') with
     | (p, ':' :: ':' :: rest2) =>
       !p.isEmpty &&
         (match rest2.span isAriChar with
          | (q, '/' :: r) => !q.isEmpty && !r.isEmpty && r.all isAriChar
          | _ => false)
     | _ => false)
  | _ => false

/-- After the leading upper-case letter of an Atlassian key: more upper-case
letters until the dash, then one or more digits to the end. -/
def keyTail : List Char → Bool
  | [] => false
  | '-' :: ds => !ds.isEmpty && ds.all Char.isDigit
  | c :: rest => c.isUpper && keyTail rest

/-- `PATTERNS.atlassianKey`: `^[A-Z]+-[0-9]+$`. -/
def atlassianKeyTest (s : String) : Bool :=
  match s.data with
  | c :: rest => c.isUpper && keyTail rest
  | [] => false

/-- The `ResourceType` union of the indexer. -/
inductive ResourceType where
  | uuid
  | numeric
  | path
  | slug
  | unknown
deriving Repr, DecidableEq

/-- `detectIdType`: type detection in order of specificity; empty strings and
strings longer than 500 characters yield nothing. -/
def detectIdType (value : String) : Option ResourceType :=
  if value.length == 0 then none
  else if 500 < value.length then none
  else if uuidTest value then some .uuid
  else if ariTest value then some .path
  else if atlassianKeyTest value then some .slug
  else if numericTest value then some .numeric
  else if pathTest value then some .path
  else if slugTest value then some .slug
  else none

/-- `ID_FIELD_NAMES` of the indexer. -/
def ID_FIELD_NAMES : List String :=
  ["id", "uuid", "key", "resourceId", "objectId", "entityId", "userId",
   "accountId", "projectId", "issueId", "pageId", "spaceId", "ari",
   "cloudId", "siteId", "workspaceId", "boardId", "ticketId", "documentId",
   "fileId", "folderId", "groupId", "teamId", "channelId", "conversationId",
   "messageId", "attachmentId", "commentId", "self"]

/-- `isIdFieldName`: case-insensitive exact match against `ID_FIELD_NAMES`,
or a case-insensitive suffix match. -/
def isIdFieldName (fieldName : String) : Bool :=
  let lowerName := strLower fieldName
  ID_FIELD_NAMES.any fun idField =>
    lowerName == strLower idField || strEndsWith lowerName (strLower idField)

/-- An extracted identifier together with its provenance (`ExtractedId`). -/
structure ExtractedId where
  id : String
  type : ResourceType
  fieldName : String
  fieldPath : String
  parentContext : List (String × Json)

/-- Strip one trailing `[digits]` group from a path segment
(`.replace(/\[\d+\]$/, "")`). -/
def stripArrayIndex (s : String) : String :=
  match s.data.reverse with
  | ']' :: rest =>
    let ds := rest.takeWhile Char.isDigit
    (match ds, rest.drop ds.length with
     | _ :: _, '[' :: rem => ⟨rem.reverse⟩
     | _, _ => s)
  | _ => s

/-- `path.split(".").pop()?.replace(/\[\d+\]$/, "") || ""`: the enclosing
field name of a JSON path. -/
def lastPathSegment (path : String) : String :=
  match ((splitOnChar '.' path.data).map fun g => String.mk g).getLast? with
  | some seg => stripArrayIndex seg
  | none => ""

/-- `sanitizeContext`: keep only primitive sibling fields, truncating strings
longer than 200 characters with a trailing ellipsis. -/
def sanitizeContext (obj : List (String × Json)) : List (String × Json) :=
  obj.filterMap fun p =>
    match p.2 with
    | .jstr s =>
      some (p.1, .jstr (if 200 < s.length then ⟨s.data.take 200⟩ ++ "..." else s))
    | .jnum n => some (p.1, .jnum n)
    | .jbool b => some (p.1, .jbool b)
    | _ => none

/-- The entries `extractIds` pushes for one string value: the ID-like field
branch first (which returns on success), then the strong-pattern branch. -/
def extractFromString (s : String) (path : String)
    (parentObj : Option (List (String × Json))) : List ExtractedId :=
  let fieldName := lastPathSegment path
  let parentCtx := match parentObj with
    | some p => sanitizeContext p
    | none => []
  let strong : List ExtractedId :=
    if uuidTest s || atlassianKeyTest s then
      match detectIdType s with
      | some t => [⟨s, t, fieldName, path, parentCtx⟩]
      | none => []
    else []
  if isIdFieldName fieldName then
    match detectIdType s with
    | some t => [⟨s, t, fieldName, path, parentCtx⟩]
    | none => strong
  else strong

mutual

/-- `extractIds`: depth-first walk collecting identifier candidates, in the
order the recursive TypeScript walk pushes them. -/
def extractIds (j : Json) (path : String)
    (parentObj : Option (List (String × Json))) : List ExtractedId :=
  match j with
  | .jnull => []
  | .jbool _ => []
  | .jstr s => extractFromString s path parentObj
  | .jnum n =>
    let fieldName := lastPathSegment path
    if isIdFieldName fieldName && 100 < n then
      [⟨toString n, .numeric, fieldName, path,
        match parentObj with
        | some p => sanitizeContext p
        | none => []⟩]
    else []
  | .jarr items => extractIdsArr items 0 path parentObj
  | .jobj fields => extractIdsObj fields fields path

/-- Array traversal of `extractIds`: each element becomes its own parent
context when it is an object, otherwise the parent is inherited. -/
def extractIdsArr (items : List Json) (i : Nat) (path : String)
    (parentObj : Option (List (String × Json))) : List ExtractedId :=
  match items with
  | [] => []
  | item :: rest =>
    let itemParent := match item with
      | .jobj f => some f
      | _ => parentObj
    extractIds item (path ++ "[" ++ toString i ++ "]") itemParent ++
      extractIdsArr rest (i + 1) path parentObj

/-- Object traversal of `extractIds`: the object itself is the parent
context for all of its children. -/
def extractIdsObj (fields : List (String × Json))
    (objRecord : List (String × Json)) (path : String) : List ExtractedId :=
  match fields with
  | [] => []
  | (k, v) :: rest =>
    extractIds v (if path == "" then k else path ++ "." ++ k) (some objRecord) ++
      extractIdsObj rest objRecord path

end

/-- `ResourceIndexer.extractMcpContent`: parse every `{type:"text", text}`
item of a `content` array as JSON; zero parses keep the original response,
one parse replaces it, several parses become an array.  `parse` is the
`JSON.parse` oracle (`none` = exception). -/
def extractMcpContent (parse : String → Option Json) (response : Json) : Json :=
  match response with
  | .jobj fields =>
    (match lookupKey fields "content" with
     | some (.jarr items) =>
       let parsedContents := items.filterMap fun item =>
         match item with
         | .jobj ifields =>
           (match lookupKey ifields "type", lookupKey ifields "text" with
            | some (.jstr ty), some (.jstr text) =>
              if ty == "text" then parse text else none
            | _, _ => none)
         | _ => none
       (match parsedContents with
        | [p] => p
        | [] => response
        | ps => .jarr ps)
     | _ => response)
  | _ => response

/-! ## User profiles (`userProfiles.ts`) -/

/-- `UserProfile`.  `colorTag` is kept as a string, as stored on disk. -/
structure UserProfile where
  id : String
  displayName : String
  colorTag : String
  authToken : Option String
  headers : List (String × String)
  createdAt : Int
  updatedAt : Int
deriving Repr, DecidableEq

/-- `UpdateProfileInput`: a partial record.  `none` means the key is absent
from the update object.  The static type omits `id` and `createdAt`, but the
runtime spread would accept them, so they are modelled here to show that
`updateProfile` overrides them regardless. -/
structure UpdateProfileInput where
  idField : Option String := none
  displayName : Option String := none
  colorTag : Option String := none
  authToken : Option (Option String) := none
  headers : Option (List (String × String)) := none
  createdAtField : Option Int := none
deriving Repr, DecidableEq

/-- The merged profile `{...existing, ...data, id: existing.id, createdAt:
existing.createdAt, updatedAt: Date.now()}`: the spread of `data` overrides
`existing` field-wise, and the trailing explicit fields override back `id`,
`createdAt` and `updatedAt`. -/
def applyProfileUpdate (existing : UserProfile) (data : UpdateProfileInput)
    (now : Int) : UserProfile :=
  { id := existing.id
    displayName := data.displayName.getD existing.displayName
    colorTag := data.colorTag.getD existing.colorTag
    authToken := data.authToken.getD existing.authToken
    headers := data.headers.getD existing.headers
    createdAt := existing.createdAt
    updatedAt := now }

/-- `UserProfileManager.updateProfile`: find the first profile with the given
id (`findIndex`), throw when absent, otherwise replace it in place and
return the updated profile. -/
def updateProfile (profiles : List UserProfile) (now : Int) (id : String)
    (data : UpdateProfileInput) : Except String (List UserProfile × UserProfile) :=
  match profiles with
  | [] => .error ("Profile not found: " ++ id)
  | p :: rest =>
    if p.id == id then
      let updated := applyProfileUpdate p data now
      .ok (updated :: rest, updated)
    else
      match updateProfile rest now id data with
      | .ok (rest2, u) => .ok (p :: rest2, u)
      | .error e => .error e

/-- `UserProfileManager.getProfile`. -/
def getProfile (profiles : List UserProfile) (id : String) : Option UserProfile :=
  profiles.find? fun p => p.id == id

/-! ## Resource Indexer state (`ResourceIndexer`) -/

/-- `IndexedResource`. -/
structure IndexedResource where
  entryId : String
  id : String
  type : ResourceType
  fieldName : String
  fieldPath : String
  parentContext : List (String × Json)
  discoveredByTool : String
  discoveredFromUser : String
  discoveredFromUserName : String
  userColorTag : String
  timestamp : Int

/-- The in-memory state of a `ResourceIndexer`: the resource list and the
dedup set of `id::user` keys (a `Set<string>`, modelled as the list of keys
in insertion order). -/
structure IndexerState where
  resources : List IndexedResource
  seenIds : List String

/-- The dedup key `${id}::${userProfileId || "anonymous"}` of a stored
resource. -/
def resKey (r : IndexedResource) : String :=
  r.id ++ "::" ++ r.discoveredFromUser

/-- The loop body of `indexResponse` over the extracted candidates: skip a
candidate whose key was seen, otherwise record it and remember the key.
`uuidGen` supplies `randomUUID()` (indexed by the resource count at the time
of the insertion). -/
def indexFold (uid toolName userName userColor : String)
    (uuidGen : Nat → String) (now : Int) :
    List ExtractedId → IndexerState → List IndexedResource →
    IndexerState × List IndexedResource
  | [], st, acc => (st, acc)
  | e :: rest, st, acc =>
    let uniqueKey := e.id ++ "::" ++ uid
    if st.seenIds.contains uniqueKey then
      indexFold uid toolName userName userColor uuidGen now rest st acc
    else
      let r : IndexedResource :=
        { entryId := uuidGen st.resources.length
          id := e.id
          type := e.type
          fieldName := e.fieldName
          fieldPath := e.fieldPath
          parentContext := e.parentContext
          discoveredByTool := toolName
          discoveredFromUser := uid
          discoveredFromUserName := userName
          userColorTag := userColor
          timestamp := now }
      indexFold uid toolName userName userColor uuidGen now rest
        { resources := st.resources ++ [r], seenIds := st.seenIds ++ [uniqueKey] }
        (acc ++ [r])

/-- `ResourceIndexer.indexResponse`: unwrap the MCP envelope, extract
candidate identifiers, dedup them per `(id, user)` and append the new
entries.  Returns the new state and the newly added resources. -/
def indexResponse (parse : String → Option Json) (profiles : List UserProfile)
    (uuidGen : Nat → String) (now : Int) (st : IndexerState)
    (userProfileId : Option String) (toolName : String) (response : Json) :
    IndexerState × List IndexedResource :=
  let profile := userProfileId.bind fun uid => getProfile profiles uid
  let userName := match profile with
    | some p => if p.displayName == "" then "Unknown" else p.displayName
    | none => "Unknown"
  let userColor := match profile with
    | some p => if p.colorTag == "" then "blue" else p.colorTag
    | none => "blue"
  let responseToIndex := extractMcpContent parse response
  let extracted := extractIds responseToIndex "" none
  let uid := userProfileId.getD "anonymous"
  indexFold uid toolName userName userColor uuidGen now extracted st []

/-! ## Resource Graph (`resourceGraph.ts`) -/

/-- `ResourceNode`.  `type` and `status` are the literal union strings. -/
structure ResourceNode where
  id : String
  type : String
  name : String
  data : List (String × Json)
  timestamp : Nat
  status : String

/-- `ResourceEdge`. -/
structure ResourceEdge where
  id : String
  source : String
  target : String
  relation : String
  paramName : String

/-- The state of a `ResourceGraph`: the node map in insertion order, the
edge list, and the per-tool flattened results. -/
structure GraphState where
  nodes : List (String × ResourceNode)
  edges : List ResourceEdge
  toolResults : List (String × List (String × Json))

/-- The empty graph. -/
def GraphState.empty : GraphState := ⟨[], [], []⟩

/-- `addPendingTool`: insert a pending tool node keyed and stamped with
`Date.now()`; returns the node id. -/
def addPendingTool (g : GraphState) (toolName : String) (now : Nat) :
    String × GraphState :=
  let nodeId := "tool_" ++ toolName ++ "_" ++ toString now
  let node : ResourceNode :=
    { id := nodeId, type := "tool", name := toolName, data := [],
      timestamp := now, status := "pending" }
  (nodeId, { g with nodes := setKey g.nodes nodeId node })

/-- `markToolRunning`: unknown node ids are silently ignored. -/
def markToolRunning (g : GraphState) (nodeId : String)
    (params : List (String × Json)) : GraphState :=
  match lookupKey g.nodes nodeId with
  | none => g
  | some n =>
    let n2 := { n with status := "running", data := setKey n.data "params" (.jobj params) }
    { g with nodes := setKey g.nodes nodeId n2 }

/-- `markToolFailed`. -/
def markToolFailed (g : GraphState) (nodeId : String) (error : String) : GraphState :=
  match lookupKey g.nodes nodeId with
  | none => g
  | some n =>
    let n2 := { n with status := "failed", data := setKey n.data "error" (.jstr error) }
    { g with nodes := setKey g.nodes nodeId n2 }

/-- `markToolSkipped`. -/
def markToolSkipped (g : GraphState) (nodeId : String) (reason : String)
    (missingParams : List String) : GraphState :=
  match lookupKey g.nodes nodeId with
  | none => g
  | some n =>
    let newData :=
      setKey (setKey n.data "skipReason" (.jstr reason))
        "missingParams" (.jarr (missingParams.map .jstr))
    let n2 := { n with status := "skipped", data := newData }
    { g with nodes := setKey g.nodes nodeId n2 }

/-- `getToolNodeId`: the most recent (largest timestamp, earliest on ties)
tool node with the given name. -/
def getToolNodeId (g : GraphState) (toolName : String) : Option String :=
  let latest := g.nodes.foldl
    (fun acc p =>
      let n := p.2
      if n.type == "tool" && n.name == toolName then
        match acc with
        | none => some n
        | some b => if b.timestamp < n.timestamp then some n else acc
      else acc)
    none
  latest.map fun n => n.id

mutual

/-- `flattenResult`: flatten a tool result to key/value write events, later
writes overriding earlier ones.  The `content[].text` branch re-enters the
walk on freshly parsed values, which no structural measure covers, so it
consumes one unit of `fuel`; every run of the TypeScript function is
reproduced exactly by any sufficiently large fuel. -/
def flattenResult (parseAny : Json → Option Json) :
    Nat → Json → String → List (String × Json)
  | fuel, .jobj fields, pre =>
    (match lookupKey fields "content" with
     | some (.jarr items) =>
       (match fuel with
        | 0 => []
        | f + 1 =>
          items.foldl
            (fun flat item =>
              match item with
              | .jobj ifields =>
                (match lookupKey ifields "text" with
                 | some tv =>
                   (match parseAny tv with
                    | some parsed => flat ++ flattenResult parseAny f parsed pre
                    | none => flat)
                 | none => flat)
              | _ => flat)
            [])
     | _ => flattenFields parseAny fuel fields pre)
  | fuel, .jarr items, pre =>
    (match items with
     | [] => []
     | x :: _ => flattenResult parseAny fuel x pre ++ [(pre ++ "_array", .jarr items)])
  | _, _, _ => []

/-- The plain-object branch of `flattenResult`: record each leaf under both
the bare key and the full dotted path, recurse into non-null objects. -/
def flattenFields (parseAny : Json → Option Json) :
    Nat → List (String × Json) → String → List (String × Json)
  | _, [], _ => []
  | fuel, (k, v) :: rest, pre =>
    let newPre := if pre == "" then k else pre ++ "." ++ k
    (if v.isLeaf then [(k, v), (newPre, v)]
     else flattenResult parseAny fuel v newPre) ++
      flattenFields parseAny fuel rest pre

end

/-- The graph's looser ID-field predicate used by `extractResources`. -/
def graphIsIdFieldName (key : String) : Bool :=
  let lowerKey := strLower key
  if strEndsWith lowerKey "id" then true
  else if strEndsWith lowerKey "key" && !strIncludes lowerKey "api" &&
      !strIncludes lowerKey "secret" then true
  else ["uuid", "slug", "name", "code", "handle", "identifier"].contains lowerKey

/-- The graph's ID-like value predicate: a short string without double
spaces, with at most three space-separated tokens, not a URL. -/
def isIdLikeValue : Json → Option String
  | .jstr v =>
    if v.length == 0 || 100 < v.length then none
    else if strIncludes v "  " || 3 < (splitOnChar ' ' v.data).length then none
    else if leadsWith "http://".data v.data || leadsWith "https://".data v.data then none
    else some v
  | _ => none

mutual

/-- `extractFromObject` of `extractResources`: discover resource nodes and
`discovered` edges; arrays contribute only their first ten items. -/
def extractFromObject (parentNodeId : String) (now : Nat) (g : GraphState) :
    Json → String → GraphState
  | .jarr items, path => extractFromArr parentNodeId now g items 0 path
  | .jobj fields, path => extractFromFields parentNodeId now g fields path
  | _, _ => g

/-- Array part of `extractFromObject` (`slice(0, 10).forEach`). -/
def extractFromArr (parentNodeId : String) (now : Nat) (g : GraphState) :
    List Json → Nat → String → GraphState
  | [], _, _ => g
  | item :: rest, i, path =>
    if i < 10 then
      let g2 := extractFromObject parentNodeId now g item
        (path ++ "[" ++ toString i ++ "]")
      extractFromArr parentNodeId now g2 rest (i + 1) path
    else g

/-- Field part of `extractFromObject`: an ID-like field with an ID-like
value becomes a resource node (created at most once per synthetic id) plus a
`discovered` edge; other object-valued fields are recursed into. -/
def extractFromFields (parentNodeId : String) (now : Nat) (g : GraphState) :
    List (String × Json) → String → GraphState
  | [], _ => g
  | (key, value) :: rest, path =>
    let g2 :=
      match (if graphIsIdFieldName key then isIdLikeValue value else none) with
      | some v =>
        let resourceId := "resource_" ++ key ++ "_" ++ v
        let rnode : ResourceNode :=
          { id := resourceId, type := "resource", name := key ++ ": " ++ v,
            data := [("fieldName", .jstr key), ("value", .jstr v),
                     ("path", .jstr (path ++ "." ++ key))],
            timestamp := now, status := "completed" }
        let gNode :=
          if (lookupKey g.nodes resourceId).isSome then g
          else { g with nodes := setKey g.nodes resourceId rnode }
        { gNode with edges := gNode.edges ++
            [{ id := "edge_" ++ parentNodeId ++ "_" ++ resourceId,
               source := parentNodeId, target := resourceId,
               relation := "discovered", paramName := key }] }
      | none =>
        match value with
        | .jobj _ => extractFromObject parentNodeId now g value (path ++ "." ++ key)
        | .jarr _ => extractFromObject parentNodeId now g value (path ++ "." ++ key)
        | .jnull => g
        | _ => g
    extractFromFields parentNodeId now g2 rest path

end

/-- `extractResources`: unwrap an MCP `content` envelope (each parsed text
item is walked), otherwise walk the raw result, starting at path
`"result"`. -/
def extractResources (parseAny : Json → Option Json) (g : GraphState)
    (parentNodeId : String) (result : Json) (now : Nat) : GraphState :=
  match result with
  | .jobj fields =>
    (match lookupKey fields "content" with
     | some (.jarr items) =>
       items.foldl
         (fun g item =>
           match item with
           | .jobj ifields =>
             (match lookupKey ifields "text" with
              | some tv =>
                (match parseAny tv with
                 | some parsed => extractFromObject parentNodeId now g parsed "result"
                 | none => g)
              | none => g)
           | _ => g)
         g
     | _ => extractFromObject parentNodeId now g result "result")
  | _ => extractFromObject parentNodeId now g result "result"

/-- `recordToolExecution`: complete the node, publish the flattened result
under the tool name, add one `provided_` edge per surviving parameter
source, then extract resources from the result. -/
def recordToolExecution (parseAny : Json → Option Json) (fuel : Nat)
    (g : GraphState) (nodeId : String) (result : Json)
    (paramSources : List (String × String)) (now : Nat) : GraphState :=
  match lookupKey g.nodes nodeId with
  | none => g
  | some node =>
    let node2 :=
      { node with status := "completed", data := setKey node.data "result" result }
    let g := { g with nodes := setKey g.nodes nodeId node2 }
    let flat := flattenResult parseAny fuel result ""
    let g := { g with toolResults := setKey g.toolResults node2.name flat }
    let g := paramSources.foldl
      (fun g p =>
        let paramName := p.1
        let sourceNodeId := p.2
        if sourceNodeId != "" && (lookupKey g.nodes sourceNodeId).isSome then
          { g with edges := g.edges ++
              [{ id := "edge_" ++ sourceNodeId ++ "_" ++ nodeId ++ "_" ++ paramName,
                 source := sourceNodeId, target := nodeId,
                 relation := "provided_" ++ paramName, paramName := paramName }] }
        else g)
      g
    extractResources parseAny g nodeId result now

/-! ## Agent Orchestrator (`agentOrchestrator.ts`)

LLM calls and tool calls are suspension points whose outcomes the
orchestrator merely consumes, so one loop iteration is driven by an
`IterEnv` carrying those outcomes together with the clock value. -/

/-- `ToolInfo`: name and the schema's optional `required` list (the other
schema parts never influence control flow). -/
structure ToolInfo where
  name : String
  description : Option String := none
  required : Option (List String) := none
deriving Repr, DecidableEq

/-- `AgentStatus`. -/
inductive AgentStatus where
  | idle
  | running
  | paused
  | completed
  | error
deriving Repr, DecidableEq

/-- `FlaggedTool`. -/
structure FlaggedTool where
  toolName : String
  missingParams : List String
  reason : String
  nodeId : String
deriving Repr, DecidableEq

/-- `ExecutionStep`. -/
structure ExecutionStep where
  toolName : String
  nodeId : String
  parameters : List (String × Json)
  parameterSources : List (String × String)
  status : String
  result : Option Json := none
  error : Option String := none
  timestamp : Nat
  depth : Int

/-- `AgentEvent`: every emission wraps a type tag, a JSON payload and a
timestamp. -/
structure AgentEvent where
  type : String
  data : Json
  timestamp : Nat

/-- The orchestrator state visible to the claims: the `AgentState` fields
together with the graph and the loop-local `executedTools` and `toolDepths`
trackers (the derived `resourceGraph` visualization copy is omitted). -/
structure OrchState where
  status : AgentStatus
  toolsDiscovered : List ToolInfo
  executionHistory : List ExecutionStep
  currentStep : Nat
  currentDepth : Int
  maxDepth : Int
  flaggedTools : List FlaggedTool
  startTime : Option Nat
  endTime : Option Nat
  error : Option String
  aborted : Bool
  graph : GraphState
  executedTools : List String
  toolDepths : List (String × Int)

/-- The result of `selectNextTool` as consumed by the loop. -/
structure SelResult where
  tool : Option String
  reason : String
deriving Repr, DecidableEq

/-- The raw result of `extractParameters`; the loop normalizes each possibly
missing field (`|| []`, `?? 0`). -/
structure RawExtraction where
  params : Option (List (String × Json)) := none
  sources : Option (List (String × String)) := none
  confidence : Option ℚ := none
  missingParams : Option (List String) := none

/-- Environment of one loop iteration: the outcome of the `selectNextTool`
call, of the `extractParameters` call, of the tool call (exception message
or result), the clock, and the `JSON.parse` oracle and fuel used by the
graph when recording a completed execution. -/
structure IterEnv where
  sel : SelResult
  ext : RawExtraction
  callResult : Except String Json
  now : Nat
  parseAny : Json → Option Json
  fuel : Nat

/-- How one run of the loop body ended: `brk` leaves the loop, `cont` and
`ran` loop again; only `ran` invoked the tool-call function. -/
inductive IterOut where
  | brk
  | cont
  | ran
deriving Repr, DecidableEq

/-- `${toolDepth} > ${maxDepth}` inside the depth flag reason. -/
def depthReason (toolDepth maxDepth : Int) : String :=
  "Exceeds max depth (" ++ toString toolDepth ++ " > " ++ toString maxDepth ++ ")"

/-- One step of the depth/parameter-source fold of the execution loop: keep
the running maximum of recorded source depths (unknown tools count as 0) and
collect the sources the graph can resolve to node ids. -/
def depthFoldStep (g : GraphState) (td : List (String × Int))
    (acc : Int × List (String × String)) (p : String × String) :
    Int × List (String × String) :=
  let sourceTool := splitDotHead p.2
  let acc2 := match getToolNodeId g sourceTool with
    | some srcId => (acc.1, acc.2 ++ [(p.1, srcId)])
    | none => acc
  let sourceDepth := (lookupKey td sourceTool).getD 0
  (max acc2.1 sourceDepth, acc2.2)

/-- The depth/parameter-source fold over `ext.sources`. -/
def depthFold (g : GraphState) (td : List (String × Int))
    (srcs : List (String × String)) : Int × List (String × String) :=
  srcs.foldl (depthFoldStep g td) ((0 : Int), ([] : List (String × String)))

/-- One pass of the `while` body of `runExecutionLoop`, lines 226-389 of
`agentOrchestrator.ts`, for a state whose status is `running` and whose
abort signal has not fired.  Returns the new state, the events emitted
during the pass, and how the pass ended. -/
def loopIter (env : IterEnv) (st : OrchState) :
    OrchState × List AgentEvent × IterOut :=
  match env.sel.tool with
  | none => (st, [], .brk)
  | some selName =>
    if st.executedTools.contains selName then (st, [], .cont)
    else
      let st := { st with executedTools := st.executedTools ++ [selName] }
      match st.toolsDiscovered.find? (fun t => t.name == selName) with
      | none => (st, [], .cont)
      | some toolInfo =>
        let (nodeId, g1) := addPendingTool st.graph toolInfo.name env.now
        let st := { st with graph := g1 }
        let missingParams := env.ext.missingParams.getD []
        let extractedParams := env.ext.params.getD []
        let extractedSources := env.ext.sources.getD []
        let confidence := env.ext.confidence.getD 0
        if !missingParams.isEmpty && confidence < 1/2 then
          let st :=
            { st with
              flaggedTools := st.flaggedTools ++
                [{ toolName := toolInfo.name, missingParams := missingParams,
                   reason := "Could not resolve required parameters from available context",
                   nodeId := nodeId }]
              graph := markToolSkipped st.graph nodeId "Missing parameters" missingParams }
          (st,
           [{ type := "tool_skipped",
              data := .jobj [("tool", .jstr toolInfo.name),
                             ("missingParams", .jarr (missingParams.map .jstr))],
              timestamp := env.now }],
           .cont)
        else
          let folded := depthFold st.graph st.toolDepths extractedSources
          let maxSourceDepth := folded.1
          let paramSources := folded.2
          let toolDepth := maxSourceDepth + 1
          let st := { st with toolDepths := setKey st.toolDepths toolInfo.name toolDepth }
          if st.maxDepth < toolDepth then
            let st :=
              { st with
                flaggedTools := st.flaggedTools ++
                  [{ toolName := toolInfo.name, missingParams := [],
                     reason := depthReason toolDepth st.maxDepth, nodeId := nodeId }]
                graph := markToolSkipped st.graph nodeId "Exceeds max depth" [] }
            (st,
             [{ type := "tool_skipped",
                data := .jobj [("tool", .jstr toolInfo.name),
                               ("reason", .jstr "Exceeds max depth")],
                timestamp := env.now }],
             .cont)
          else
            let st := { st with currentDepth := max st.currentDepth toolDepth }
            let step : ExecutionStep :=
              { toolName := toolInfo.name, nodeId := nodeId,
                parameters := extractedParams, parameterSources := paramSources,
                status := "running", timestamp := env.now, depth := toolDepth }
            let st :=
              { st with
                executionHistory := st.executionHistory ++ [step]
                currentStep := st.executionHistory.length
                graph := markToolRunning st.graph nodeId extractedParams }
            let startEv : AgentEvent :=
              { type := "tool_start",
                data := .jobj [("tool", .jstr toolInfo.name),
                               ("params", .jobj extractedParams),
                               ("depth", .jnum toolDepth)],
                timestamp := env.now }
            match env.callResult with
            | .ok result =>
              let st :=
                { st with
                  executionHistory := st.executionHistory.dropLast ++
                    [{ step with status := "completed", result := some result }]
                  graph := recordToolExecution env.parseAny env.fuel st.graph
                    nodeId result paramSources env.now }
              (st,
               [startEv,
                { type := "tool_complete",
                  data := .jobj [("tool", .jstr toolInfo.name), ("result", result),
                                 ("depth", .jnum toolDepth)],
                  timestamp := env.now }],
               .ran)
            | .error msg =>
              let st :=
                { st with
                  executionHistory := st.executionHistory.dropLast ++
                    [{ step with status := "failed", error := some msg }]
                  graph := markToolFailed st.graph nodeId msg }
              (st,
               [startEv,
                { type := "tool_failed",
                  data := .jobj [("tool", .jstr toolInfo.name), ("error", .jstr msg)],
                  timestamp := env.now }],
               .ran)

/-- The `while (this.state.status === "running")` loop over a finite supply
of iteration environments: each round first re-checks the status, then the
abort signal, and stops consuming on `break`. -/
def runIters : List IterEnv → OrchState → OrchState × List AgentEvent
  | [], st => (st, [])
  | env :: rest, st =>
    if st.status = .running then
      if st.aborted then (st, [])
      else
        match loopIter env st with
        | (st2, evs, .brk) => (st2, evs)
        | (st2, evs, _) =>
          let (st3, evs2) := runIters rest st2
          (st3, evs ++ evs2)
    else (st, [])

/-- Lines 392-400 of `agentOrchestrator.ts`: what runs unconditionally once
the loop exits — status becomes `completed`, `endTime` is set, and
`agent_complete` is emitted with the totals. -/
def loopEpilogue (st : OrchState) (now : Nat) : OrchState × List AgentEvent :=
  let st2 := { st with status := .completed, endTime := some now }
  (st2,
   [{ type := "agent_complete",
      data := .jobj [("totalTools", .jnum st.executedTools.length),
                     ("flagged", .jnum st.flaggedTools.length),
                     ("duration", .jnum ((now : Int) - ((st.startTime.getD 0 : Nat) : Int)))],
      timestamp := now }])

/-- `stop()`: fire the abort signal, move to `idle`, set `endTime`, emit the
status change.  It runs concurrently with a suspended loop iteration. -/
def stopAgent (st : OrchState) (now : Nat) : OrchState × List AgentEvent :=
  ({ st with aborted := true, status := .idle, endTime := some now },
   [{ type := "status_change", data := .jobj [("status", .jstr "idle")],
      timestamp := now }])

/-- The continuation of `runExecutionLoop` observed after a point where the
loop is suspended: the remaining loop rounds followed by the epilogue.  For
a state whose status has left `running` this is exactly the epilogue. -/
def loopContinue (envs : List IterEnv) (st : OrchState) (tEnd : Nat) :
    OrchState × List AgentEvent :=
  let (st2, evs) := runIters envs st
  let (st3, evs2) := loopEpilogue st2 tEnd
  (st3, evs ++ evs2)

/-! ## Gemini client (`geminiClient.ts`) -/

/-- `tool.inputSchema?.required || []`. -/
def requiredOf (t : ToolInfo) : List String :=
  t.required.getD []

/-- The per-parameter test of the fallback's second tier: some context entry
is a non-null object value whose serialization contains the parameter name,
or `"cloudId"`, or `"id"`. -/
def paramInContext (ctx : List (String × Json)) (param : String) : Bool :=
  (ctx.map fun p => p.1).any fun key =>
    match lookupKey ctx key with
    | some (.jobj fields) =>
      let str := jsonStringify (.jobj fields)
      strIncludes str param || strIncludes str "cloudId" || strIncludes str "id"
    | some (.jarr items) =>
      let str := jsonStringify (.jarr items)
      strIncludes str param || strIncludes str "cloudId" || strIncludes str "id"
    | _ => false

/-- `GeminiClient.fallbackToolSelection`: first an unexecuted tool without
required parameters, then one whose every required parameter passes
`paramInContext`, otherwise none. -/
def fallbackToolSelection (unexecutedTools : List ToolInfo)
    (availableContext : List (String × Json)) : SelResult :=
  match unexecutedTools.find? (fun t => (requiredOf t).isEmpty) with
  | some t => { tool := some t.name, reason := "Fallback: no parameters required" }
  | none =>
    match unexecutedTools.find?
        (fun t => (requiredOf t).all (paramInContext availableContext)) with
    | some t =>
      { tool := some t.name, reason := "Fallback: params likely available in context" }
    | none => { tool := none, reason := "No suitable tool found in fallback" }

/-- The shapes a parsed `selectNextTool` reply can take: a single object or
an array of objects (`parseJSONResponse` output); `.error` marks a parse
failure. -/
inductive SelReply where
  | single (tool : Option String) (reason : String)
  | many (entries : List (Option String × String))
deriving Repr, DecidableEq

/-- JavaScript truthiness of the `tool` field: `null`, `undefined` and the
empty string are falsy. -/
def toolTruthy : Option String → Bool
  | some s => s != ""
  | none => false

/-- `GeminiClient.selectNextTool`: depth and exhaustion short-circuits, then
the parsed reply with array handling, falling back on a parse failure or a
falsy tool. -/
def selectNextTool (availableTools : List ToolInfo) (executedTools : List String)
    (availableContext : List (String × Json)) (currentDepth maxDepth : Int)
    (reply : Except Unit SelReply) : SelResult :=
  if maxDepth ≤ currentDepth then
    { tool := none, reason := "Maximum depth reached" }
  else
    let unexecutedTools := availableTools.filter fun t =>
      !(executedTools.contains t.name)
    if unexecutedTools.isEmpty then
      { tool := none, reason := "All tools have been executed" }
    else
      match reply with
      | .error _ => fallbackToolSelection unexecutedTools availableContext
      | .ok (.single tool reason) =>
        if toolTruthy tool then { tool := tool, reason := reason }
        else fallbackToolSelection unexecutedTools availableContext
      | .ok (.many entries) =>
        match entries with
        | (tool, reason) :: _ =>
          if toolTruthy tool then { tool := tool, reason := reason }
          else fallbackToolSelection unexecutedTools availableContext
        | [] => fallbackToolSelection unexecutedTools availableContext

/-! ## Proxy interceptor (`mcpProxy.ts`) -/

/-- JSON-RPC ids are strings or numbers. -/
inductive RpcId where
  | num (n : Int)
  | str (s : String)
deriving Repr, DecidableEq

/-- The messages the proxy distinguishes: requests (id and method),
responses (id and result), error responses as synthesized by the proxy, and
notifications. -/
inductive RpcMsg where
  | request (id : RpcId) (method : String) (params : Option Json)
  | response (id : RpcId) (result : Json)
  | errorResponse (id : RpcId) (code : Int) (message : String) (data : Json)
  | notification (method : String) (params : Option Json)

/-- The correlation-table entry `{method, toolName?}`. -/
structure PendingInfo where
  method : String
  toolName : Option String
deriving Repr, DecidableEq

/-- Proxy-local state: half-close flags and the correlation table keyed by
request id. -/
structure ProxyState where
  clientClosed : Bool
  serverClosed : Bool
  pending : List (RpcId × PendingInfo)

/-- `String(params.name)` for the values that can reach it. -/
def jsDisplayString : Json → String
  | .jstr s => s
  | .jnum n => toString n
  | .jbool true => "true"
  | .jbool false => "false"
  | .jnull => "null"
  | .jarr _ => ""
  | .jobj _ => "[object Object]"

/-- The tool name recorded for a request: present exactly for `tools/call`
requests whose params object carries a `name` field. -/
def toolNameOf (method : String) (params : Option Json) : Option String :=
  if method == "tools/call" then
    match params with
    | some (.jobj fields) =>
      (lookupKey fields "name").map jsDisplayString
    | _ => none
  else none

/-- A send failure: the rejection's `message` and the error value forwarded
as `data`. -/
structure SendErr where
  message : String
  asJson : Json

/-- `transportToClient.onmessage`: record requests in the correlation table,
forward to the server, and on a send failure synthesize the `-32001` error
response back to a still-open client.  Returns the new state, the messages
sent to the client root, and the messages forwarded to the server. -/
def onClientMessage (st : ProxyState) (msg : RpcMsg)
    (sendFail : Option SendErr) : ProxyState × List RpcMsg × List RpcMsg :=
  let st := match msg with
    | .request id method params =>
      let info : PendingInfo := ⟨method, toolNameOf method params⟩
      { st with pending := setKey st.pending id info }
    | _ => st
  match sendFail with
  | none => (st, [], [msg])
  | some e =>
    match msg with
    | .request id _ _ =>
      if !st.clientClosed then
        (st, [.errorResponse id (-32001) e.message e.asJson], [])
      else (st, [], [])
    | _ => (st, [], [])

/-- One indexing command submitted to the resource indexer by the proxy. -/
structure IndexCmd where
  toolName : String
  result : Json

/-- `transportToServer.onmessage`: a response whose id is pending removes
the correlation entry and, for a `tools/call`, submits the result for
indexing; every message is forwarded to the client. -/
def onServerMessage (st : ProxyState) (msg : RpcMsg) :
    ProxyState × List RpcMsg × List IndexCmd :=
  match msg with
  | .response id result =>
    (match lookupKey st.pending id with
     | some info =>
       let st := { st with pending := st.pending.filter fun p => !(p.1 == id) }
       (match info.toolName with
        | some tn =>
          if info.method == "tools/call" then (st, [msg], [⟨tn, result⟩])
          else (st, [msg], [])
        | none => (st, [msg], []))
     | none => (st, [msg], []))
  | _ => (st, [msg], [])

/-! ## Helper lemmas on the map model -/

theorem beq_false_of_ne {α : Type} [BEq α] [LawfulBEq α] {a b : α} (h : a ≠ b) :
    (a == b) = false := by
  cases hq : a == b with
  | false => rfl
  | true => exact absurd (eq_of_beq hq) h

theorem find?_map_set {α β : Type} [BEq α] [LawfulBEq α]
    (l : List (α × β)) (k k2 : α) (v : β) (hne : (k == k2) = false) :
    ((l.map fun p => if p.1 == k then (k, v) else p).find? fun p => p.1 == k2) =
      l.find? fun p => p.1 == k2 := by
  induction l with
  | nil => rfl
  | cons hd tl ih =>
    by_cases hk : (hd.1 == k) = true
    · have h3 : (hd.1 == k2) = false := by rw [eq_of_beq hk]; exact hne
      rw [List.map_cons, if_pos hk]
      simp only [List.find?_cons, hne, h3]
      exact ih
    · rw [List.map_cons, if_neg hk]
      cases hq : hd.1 == k2 with
      | true => simp only [List.find?_cons, hq]
      | false =>
        simp only [List.find?_cons, hq]
        exact ih

theorem find?_map_set_self {α β : Type} [BEq α] [LawfulBEq α]
    (l : List (α × β)) (k : α) (v : β) (ha : l.any (fun p => p.1 == k) = true) :
    ((l.map fun p => if p.1 == k then (k, v) else p).find? fun p => p.1 == k) =
      some (k, v) := by
  induction l with
  | nil => simp at ha
  | cons hd tl ih =>
    by_cases hk : (hd.1 == k) = true
    · rw [List.map_cons, if_pos hk]
      simp [List.find?_cons]
    · have hk2 : (hd.1 == k) = false := by
        cases hr : hd.1 == k with
        | false => rfl
        | true => exact absurd hr hk
      rw [List.map_cons, if_neg hk]
      simp only [List.find?_cons, hk2]
      exact ih (by simpa [hk2] using ha)

theorem lookupKey_setKey_self {α β : Type} [BEq α] [LawfulBEq α]
    (l : List (α × β)) (k : α) (v : β) :
    lookupKey (setKey l k v) k = some v := by
  by_cases ha : l.any (fun p => p.1 == k) = true
  · unfold setKey
    rw [if_pos ha]
    unfold lookupKey
    rw [find?_map_set_self l k v ha]
    rfl
  · unfold setKey
    rw [if_neg ha]
    unfold lookupKey
    rw [List.find?_append]
    have hnone : (l.find? fun p => p.1 == k) = none := by
      rw [List.find?_eq_none]
      intro p hp
      intro hcontra
      exact ha (List.any_eq_true.mpr ⟨p, hp, hcontra⟩)
    rw [hnone]
    simp [List.find?]

theorem lookupKey_setKey_ne {α β : Type} [BEq α] [LawfulBEq α]
    (l : List (α × β)) (k k2 : α) (v : β) (h : k2 ≠ k) :
    lookupKey (setKey l k v) k2 = lookupKey l k2 := by
  have hbk : (k == k2) = false := beq_false_of_ne (fun e => h e.symm)
  by_cases ha : l.any (fun p => p.1 == k) = true
  · unfold setKey
    rw [if_pos ha]
    unfold lookupKey
    rw [find?_map_set l k k2 v hbk]
  · unfold setKey
    rw [if_neg ha]
    unfold lookupKey
    rw [List.find?_append]
    cases hfl : l.find? fun p => p.1 == k2 with
    | some p => simp
    | none => simp [List.find?, hbk]

/-! ## Claim theorems -/

/-- Spec-side description for C3: the values obtained by parsing, in order,
every `{type:"text", text}` item of a content array whose `text` parses as
JSON. -/
def parsedTextValues (parse : String → Option Json) (items : List Json) : List Json :=
  items.filterMap fun item =>
    match item with
    | .jobj ifields =>
      (match lookupKey ifields "type", lookupKey ifields "text" with
       | some (.jstr ty), some (.jstr text) =>
         if ty == "text" then parse text else none
       | _, _ => none)
    | _ => none

/-- C3: for a response object whose `content` is an array, the indexer's
envelope unwrapping traverses the original response when no text item
parses as JSON, replaces the response by the single parsed value when
exactly one parses, and uses the array of parsed values when two or more
parse. -/
theorem c3_envelope_cases (parse : String → Option Json)
    (fields : List (String × Json)) (items : List Json)
    (hc : lookupKey fields "content" = some (.jarr items)) :
    (parsedTextValues parse items = [] →
      extractMcpContent parse (.jobj fields) = .jobj fields) ∧
    (∀ p, parsedTextValues parse items = [p] →
      extractMcpContent parse (.jobj fields) = p) ∧
    (2 ≤ (parsedTextValues parse items).length →
      extractMcpContent parse (.jobj fields) = .jarr (parsedTextValues parse items)) := by
  have key : extractMcpContent parse (.jobj fields) =
      (match parsedTextValues parse items with
       | [p] => p
       | [] => Json.jobj fields
       | ps => Json.jarr ps) := by
    simp only [extractMcpContent]
    rw [hc]
    rfl
  refine ⟨?_, ?_, ?_⟩
  · intro h
    rw [key, h]
  · intro p h
    rw [key, h]
  · intro h
    rw [key]
    cases hv : parsedTextValues parse items with
    | nil => rw [hv] at h; simp at h
    | cons a tl =>
      cases tl with
      | nil => rw [hv] at h; simp at h
      | cons b tl2 => rfl

/-- Witness for C3 at a concrete envelope: one parsing text item out of
two. -/
theorem c3_envelope_cases_witness :
    extractMcpContent (fun s => if s = "[1]" then some (.jarr [.jnum 1]) else none)
      (.jobj [("content", .jarr
        [.jobj [("type", .jstr "text"), ("text", .jstr "[1]")],
         .jobj [("type", .jstr "text"), ("text", .jstr "oops")]])]) =
      .jarr [.jnum 1] := by
  exact (c3_envelope_cases (fun s => if s = "[1]" then some (.jarr [.jnum 1]) else none)
    [("content", .jarr
      [.jobj [("type", .jstr "text"), ("text", .jstr "[1]")],
       .jobj [("type", .jstr "text"), ("text", .jstr "oops")]])]
    [.jobj [("type", .jstr "text"), ("text", .jstr "[1]")],
     .jobj [("type", .jstr "text"), ("text", .jstr "oops")]]
    rfl).2.1 (.jarr [.jnum 1]) rfl

/-- A UUID match pins the string to exactly 36 characters. -/
theorem uuidTest_length {s : String} (h : uuidTest s = true) :
    s.length = 36 := by
  unfold uuidTest at h
  simp only [Bool.and_eq_true] at h
  exact eq_of_beq h.1

/-- An Atlassian key match needs at least one character. -/
theorem atlassianKeyTest_length_pos {s : String} (h : atlassianKeyTest s = true) :
    s.length ≠ 0 := by
  cases hd : s.data with
  | nil => simp [atlassianKeyTest, hd] at h
  | cons c rest => simp [String.length, hd]

/-- Type detection succeeds on any Atlassian key of at most 500
characters (whichever earlier pattern fires, some type comes out). -/
theorem detectIdType_isSome_of_key {s : String} (hk : atlassianKeyTest s = true)
    (hlen : s.length ≤ 500) : (detectIdType s).isSome = true := by
  have hpos := atlassianKeyTest_length_pos hk
  have h0 : ¬(s.length == 0) = true := by
    intro hb
    exact hpos (eq_of_beq hb)
  unfold detectIdType
  rw [if_neg h0, if_neg (by omega)]
  by_cases hu : uuidTest s = true
  · rw [if_pos hu]; rfl
  · rw [if_neg hu]
    by_cases ha : ariTest s = true
    · rw [if_pos ha]; rfl
    · rw [if_neg ha, if_pos hk]; rfl

/-- A 503-character string shaped like an Atlassian key: matches the strong
pattern, but type detection rejects it for its length. -/
def longKeyStr : String := "AB-" ++ String.mk (List.replicate 500 '1')

set_option maxRecDepth 4000 in
/-- C8 counterexample: under the non-ID-like field `title`, the value
`longKeyStr` matches the Atlassian key pattern `^[A-Z]+-\d+$` yet is not
emitted (its 503 characters exceed the 500-character cap of
`detectIdType`), so "emitted iff UUID or Atlassian key pattern" fails. -/
theorem c8_counterexample :
    atlassianKeyTest longKeyStr = true ∧
    isIdFieldName "title" = false ∧
    extractIds (.jobj [("title", .jstr longKeyStr)]) "" none = [] :=
  ⟨by decide, by decide, rfl⟩

/-- C8 amended: a string value under a non-ID-like field name is emitted
if and only if it matches the UUID pattern, or matches the Atlassian key
pattern and is at most 500 characters long (the `detectIdType` length
cap, which the UUID pattern satisfies automatically). -/
theorem c8_amended (v path : String) (parent : Option (List (String × Json)))
    (hfield : isIdFieldName (lastPathSegment path) = false) :
    extractIds (.jstr v) path parent ≠ [] ↔
      (uuidTest v = true ∨ (atlassianKeyTest v = true ∧ v.length ≤ 500)) := by
  show extractFromString v path parent ≠ [] ↔ _
  unfold extractFromString
  simp only [hfield, Bool.false_eq_true, if_false]
  by_cases hu : uuidTest v = true
  · have h36 := uuidTest_length hu
    have hdet : detectIdType v = some .uuid := by
      unfold detectIdType
      rw [if_neg (by simp [h36]), if_neg (by omega), if_pos hu]
    simp [hu, hdet]
  · by_cases hk : atlassianKeyTest v = true
    · by_cases hlen : v.length ≤ 500
      · obtain ⟨t, ht⟩ := Option.isSome_iff_exists.mp (detectIdType_isSome_of_key hk hlen)
        simp [hu, hk, ht, hlen]
      · have hgt : 500 < v.length := by omega
        have hpos := atlassianKeyTest_length_pos hk
        have hnone : detectIdType v = none := by
          unfold detectIdType
          rw [if_neg (by simp [hpos]), if_pos hgt]
        simp [hu, hk, hnone, hlen]
    · simp [hu, hk]

/-- Witness for C8 amended: a UUID under the non-ID-like field `title` is
emitted. -/
theorem c8_amended_witness :
    extractIds (.jstr "550e8400-e29b-41d4-a716-446655440000") "title" none ≠ [] :=
  (c8_amended "550e8400-e29b-41d4-a716-446655440000" "title" none (by decide)).mpr
    (Or.inl (by decide))

/-- C10: updating the profile at `p.id` (first match) stores and returns a
merge that keeps `p.id` and `p.createdAt` — whatever `id`/`createdAt` the
update input carries — and sets `updatedAt` to the clock; every other
profile is returned in place unchanged; an id found nowhere throws and the
stored list stays as it was. -/
theorem c10_updateProfile (ps1 ps2 qs : List UserProfile) (p : UserProfile)
    (now : Int) (d : UpdateProfileInput) (id : String)
    (hpre : ∀ q ∈ ps1, q.id ≠ p.id) (hqs : ∀ q ∈ qs, q.id ≠ id) :
    (updateProfile (ps1 ++ p :: ps2) now p.id d =
      .ok (ps1 ++ applyProfileUpdate p d now :: ps2, applyProfileUpdate p d now)) ∧
    (applyProfileUpdate p d now).id = p.id ∧
    (applyProfileUpdate p d now).createdAt = p.createdAt ∧
    (applyProfileUpdate p d now).updatedAt = now ∧
    (∀ idf caf,
      applyProfileUpdate p { d with idField := idf, createdAtField := caf } now =
        applyProfileUpdate p d now) ∧
    updateProfile qs now id d = .error ("Profile not found: " ++ id) := by
  refine ⟨?_, rfl, rfl, rfl, fun idf caf => rfl, ?_⟩
  · induction ps1 with
    | nil =>
      simp only [List.nil_append, updateProfile]
      rw [if_pos (by simp)]
    | cons q rest ih =>
      have hq : (q.id == p.id) = false :=
        beq_false_of_ne (hpre q (List.mem_cons_self q rest))
      simp only [List.cons_append, updateProfile, hq, Bool.false_eq_true, if_false,
        List.append_eq]
      rw [ih (fun r hr => hpre r (List.mem_cons_of_mem q hr))]
  · induction qs with
    | nil => rfl
    | cons q rest ih =>
      have hq : (q.id == id) = false :=
        beq_false_of_ne (hqs q (List.mem_cons_self q rest))
      simp only [updateProfile, hq, Bool.false_eq_true, if_false]
      rw [ih (fun r hr => hqs r (List.mem_cons_of_mem q hr))]

/-- Witness for C10 at a concrete store: an update carrying a foreign
`displayName` lands on the middle profile only. -/
theorem c10_updateProfile_witness :
    updateProfile
      [{ id := "a", displayName := "A", colorTag := "blue", authToken := none,
         headers := [], createdAt := 1, updatedAt := 1 },
       { id := "b", displayName := "B", colorTag := "red", authToken := none,
         headers := [], createdAt := 2, updatedAt := 2 }]
      9 "b" { displayName := some "B2" } =
      .ok ([{ id := "a", displayName := "A", colorTag := "blue", authToken := none,
              headers := [], createdAt := 1, updatedAt := 1 },
            { id := "b", displayName := "B2", colorTag := "red", authToken := none,
              headers := [], createdAt := 2, updatedAt := 9 }],
           { id := "b", displayName := "B2", colorTag := "red", authToken := none,
             headers := [], createdAt := 2, updatedAt := 9 }) := by
  have h := c10_updateProfile
    [{ id := "a", displayName := "A", colorTag := "blue", authToken := none,
       headers := [], createdAt := 1, updatedAt := 1 }]
    [] []
    { id := "b", displayName := "B", colorTag := "red", authToken := none,
      headers := [], createdAt := 2, updatedAt := 2 }
    9 { displayName := some "B2" } "zzz"
    (by intro q hq; rw [List.mem_singleton] at hq; subst hq; decide)
    (by intro q hq; exact absurd hq (List.not_mem_nil q))
  exact h.1

/-- The indexer invariant: stored dedup keys are pairwise distinct and every
stored resource's key is remembered in the seen set. -/
def GoodIndex (st : IndexerState) : Prop :=
  (st.resources.map resKey).Nodup ∧ ∀ r ∈ st.resources, resKey r ∈ st.seenIds

theorem indexFold_seen_mono (u t un uc : String) (g : Nat → String) (n : Int)
    (es : List ExtractedId) :
    ∀ st acc, st.seenIds ⊆ (indexFold u t un uc g n es st acc).1.seenIds := by
  induction es with
  | nil => intro st acc; exact fun a ha => ha
  | cons e rest ih =>
    intro st acc
    by_cases hc : st.seenIds.contains (e.id ++ "::" ++ u) = true
    · simp only [indexFold, hc, if_true]
      exact ih st acc
    · simp only [indexFold, hc, if_false]
      intro a ha
      exact ih _ _ (List.mem_append_left _ ha)

theorem indexFold_good (u t un uc : String) (g : Nat → String) (n : Int)
    (es : List ExtractedId) :
    ∀ st acc, GoodIndex st → GoodIndex (indexFold u t un uc g n es st acc).1 := by
  induction es with
  | nil => intro st acc h; exact h
  | cons e rest ih =>
    intro st acc hgood
    by_cases hc : st.seenIds.contains (e.id ++ "::" ++ u) = true
    · simp only [indexFold, hc, if_true]
      exact ih st acc hgood
    · simp only [indexFold, hc, if_false]
      refine ih _ _ ⟨?_, ?_⟩
      · rw [List.map_append]
        rw [List.nodup_append]
        refine ⟨hgood.1, List.nodup_singleton _, ?_⟩
        intro x hx hx2
        simp only [List.map_cons, List.map_nil] at hx2
        rw [List.mem_singleton] at hx2
        obtain ⟨r, hr, hrk⟩ := List.mem_map.mp hx
        have hseen := hgood.2 r hr
        rw [hrk, hx2] at hseen
        exact hc (List.elem_iff.mpr hseen)
      · intro r hr
        rcases List.mem_append.mp hr with hold | hnew
        · exact List.mem_append_left _ (hgood.2 r hold)
        · rw [List.mem_singleton] at hnew
          subst hnew
          exact List.mem_append_right _ (List.mem_singleton_self _)

theorem indexFold_keys_in (u t un uc : String) (g : Nat → String) (n : Int)
    (es : List ExtractedId) :
    ∀ st acc, ∀ e ∈ es,
      (e.id ++ "::" ++ u) ∈ (indexFold u t un uc g n es st acc).1.seenIds := by
  induction es with
  | nil => intro st acc e he; exact absurd he (List.not_mem_nil e)
  | cons e2 rest ih =>
    intro st acc e he
    by_cases hc : st.seenIds.contains (e2.id ++ "::" ++ u) = true
    · simp only [indexFold, hc, if_true]
      rcases List.mem_cons.mp he with heq | hmem
      · subst heq
        exact indexFold_seen_mono u t un uc g n rest st acc (List.elem_iff.mp hc)
      · exact ih st acc e hmem
    · simp only [indexFold, hc, if_false]
      rcases List.mem_cons.mp he with heq | hmem
      · subst heq
        exact indexFold_seen_mono u t un uc g n rest _ _
          (List.mem_append_right _ (List.mem_singleton_self _))
      · exact ih _ _ e hmem

theorem indexFold_stable (u t un uc : String) (g : Nat → String) (n : Int)
    (es : List ExtractedId) :
    ∀ st acc, (∀ e ∈ es, (e.id ++ "::" ++ u) ∈ st.seenIds) →
      indexFold u t un uc g n es st acc = (st, acc) := by
  induction es with
  | nil => intro st acc h; rfl
  | cons e rest ih =>
    intro st acc h
    have hc : st.seenIds.contains (e.id ++ "::" ++ u) = true :=
      List.elem_iff.mpr (h e (List.mem_cons_self e rest))
    simp only [indexFold, hc, if_true]
    exact ih st acc fun e2 he2 => h e2 (List.mem_cons_of_mem e he2)

/-- C2: from any state satisfying the dedup invariant (the fresh indexer in
particular), an `indexResponse` call preserves it — so the stored list holds
at most one entry per `(id, discoveredFromUser)` pair — and repeating the
very same call leaves the state untouched and returns no new resources. -/
theorem c2_indexResponse_dedup (parse : String → Option Json)
    (profiles : List UserProfile) (uuidGen uuidGen2 : Nat → String)
    (now now2 : Int) (st : IndexerState) (userProfileId : Option String)
    (toolName : String) (response : Json) (hgood : GoodIndex st) :
    GoodIndex ⟨[], []⟩ ∧
    GoodIndex (indexResponse parse profiles uuidGen now st
      userProfileId toolName response).1 ∧
    ((indexResponse parse profiles uuidGen now st
        userProfileId toolName response).1.resources.map
      fun r => (r.id, r.discoveredFromUser)).Nodup ∧
    indexResponse parse profiles uuidGen2 now2
      (indexResponse parse profiles uuidGen now st
        userProfileId toolName response).1 userProfileId toolName response =
      ((indexResponse parse profiles uuidGen now st
        userProfileId toolName response).1, []) := by
  have hgood2 : GoodIndex (indexResponse parse profiles uuidGen now st
      userProfileId toolName response).1 := by
    unfold indexResponse
    exact indexFold_good _ _ _ _ _ _ _ _ _ hgood
  refine ⟨⟨List.nodup_nil, fun r hr => absurd hr (List.not_mem_nil r)⟩, hgood2, ?_, ?_⟩
  · have hmap : ((indexResponse parse profiles uuidGen now st
        userProfileId toolName response).1.resources.map resKey) =
        (((indexResponse parse profiles uuidGen now st
          userProfileId toolName response).1.resources.map
            fun r => (r.id, r.discoveredFromUser)).map
          fun q => q.1 ++ "::" ++ q.2) := by
      rw [List.map_map]
      rfl
    have hnodup := hgood2.1
    rw [hmap] at hnodup
    exact hnodup.of_map
  · unfold indexResponse
    exact indexFold_stable _ _ _ _ _ _ _ _ _ fun e he =>
      indexFold_keys_in _ _ _ _ _ _ _ st [] e he

/-- Witness for C2 at the S1 scenario: a single UUID envelope, indexed twice
from the empty state, stays a single entry and the repeat returns nothing
new. -/
theorem c2_indexResponse_dedup_witness :
    indexResponse (fun s => if s = "INNER"
        then some (.jobj [("results", .jarr [.jobj
          [("id", .jstr "550e8400-e29b-41d4-a716-446655440000"),
           ("title", .jstr "hello")]])])
        else none)
      [] (fun k => toString k) 7
      (indexResponse (fun s => if s = "INNER"
          then some (.jobj [("results", .jarr [.jobj
            [("id", .jstr "550e8400-e29b-41d4-a716-446655440000"),
             ("title", .jstr "hello")]])])
          else none)
        [] (fun k => toString k) 6 ⟨[], []⟩ (some "u1") "listThings"
        (.jobj [("content", .jarr [.jobj
          [("type", .jstr "text"), ("text", .jstr "INNER")]])])).1
      (some "u1") "listThings"
      (.jobj [("content", .jarr [.jobj
        [("type", .jstr "text"), ("text", .jstr "INNER")]])]) =
    ((indexResponse (fun s => if s = "INNER"
        then some (.jobj [("results", .jarr [.jobj
          [("id", .jstr "550e8400-e29b-41d4-a716-446655440000"),
           ("title", .jstr "hello")]])])
        else none)
      [] (fun k => toString k) 6 ⟨[], []⟩ (some "u1") "listThings"
      (.jobj [("content", .jarr [.jobj
        [("type", .jstr "text"), ("text", .jstr "INNER")]])])).1, []) :=
  (c2_indexResponse_dedup (fun s => if s = "INNER"
      then some (.jobj [("results", .jarr [.jobj
        [("id", .jstr "550e8400-e29b-41d4-a716-446655440000"),
         ("title", .jstr "hello")]])])
      else none)
    [] (fun k => toString k) (fun k => toString k) 6 7 ⟨[], []⟩ (some "u1")
    "listThings"
    (.jobj [("content", .jarr [.jobj
      [("type", .jstr "text"), ("text", .jstr "INNER")]])])
    ⟨List.nodup_nil, fun r hr => absurd hr (List.not_mem_nil r)⟩).2.2.2

theorem readBack_ne_none_of_mem (l : List (String × Json)) (k : String) (v : Json)
    (h : (k, v) ∈ l) : readBack l k ≠ none := by
  induction l with
  | nil => exact absurd h (List.not_mem_nil _)
  | cons p rest ih =>
    simp only [readBack]
    rcases List.mem_cons.mp h with he | hm
    · cases hr : readBack rest k with
      | some w => simp
      | none =>
        rw [← he]
        simp
    · cases hr : readBack rest k with
      | some w => simp
      | none => exact absurd hr (ih hm)

theorem readBack_mem (l : List (String × Json)) (k : String) :
    ∀ w, readBack l k = some w → (k, w) ∈ l := by
  induction l with
  | nil => intro w h; exact absurd h (by simp [readBack])
  | cons p rest ih =>
    intro w h
    simp only [readBack] at h
    cases hr : readBack rest k with
    | some v =>
      rw [hr] at h
      cases h
      exact List.mem_cons_of_mem p (ih w hr)
    | none =>
      rw [hr] at h
      by_cases hp : (p.1 == k) = true
      · rw [if_pos hp] at h
        cases h
        have hpk : p.1 = k := eq_of_beq hp
        refine List.mem_cons.mpr (Or.inl ?_)
        rw [← hpk]
      · rw [if_neg hp] at h
        exact absurd h (by simp)

theorem readBack_of_unique (l : List (String × Json)) (k : String) (v : Json)
    (hm : (k, v) ∈ l) (hu : ∀ v2, (k, v2) ∈ l → v2 = v) :
    readBack l k = some v := by
  cases hr : readBack l k with
  | none => exact absurd hr (readBack_ne_none_of_mem l k v hm)
  | some w => rw [hu w (readBack_mem l k w hr)]

/-- Without a `content` array the flattener takes the plain-object walk. -/
theorem flattenResult_no_content (parseAny : Json → Option Json) (fuel : Nat)
    (fields : List (String × Json)) (pre : String)
    (hnc : ∀ items, lookupKey fields "content" ≠ some (.jarr items)) :
    flattenResult parseAny fuel (.jobj fields) pre =
      flattenFields parseAny fuel fields pre := by
  cases hl : lookupKey fields "content" with
  | none => simp only [flattenResult, hl]
  | some j =>
    cases j with
    | jarr items => exact absurd hl (hnc items)
    | jnull => simp only [flattenResult, hl]
    | jbool b => simp only [flattenResult, hl]
    | jnum n => simp only [flattenResult, hl]
    | jstr s => simp only [flattenResult, hl]
    | jobj f2 => simp only [flattenResult, hl]

/-- Each leaf entry of the walked object is written under both its bare key
and its dotted path. -/
theorem flattenFields_mem_leaf (parseAny : Json → Option Json) (fuel : Nat)
    (fields : List (String × Json)) :
    ∀ pre k v, (k, v) ∈ fields → v.isLeaf = true →
      (k, v) ∈ flattenFields parseAny fuel fields pre ∧
      ((if pre == "" then k else pre ++ "." ++ k), v) ∈
        flattenFields parseAny fuel fields pre := by
  induction fields with
  | nil =>
    intro pre k v h
    exact absurd h (List.not_mem_nil _)
  | cons p rest ih =>
    intro pre k v hm hleaf
    cases p with
    | mk k2 v2 =>
      rcases List.mem_cons.mp hm with he | hmem
      · rw [Prod.mk.injEq] at he
        obtain ⟨rfl, rfl⟩ := he
        simp only [flattenFields, hleaf, if_true]
        constructor
        · exact List.mem_append_left _ (List.mem_cons_self _ _)
        · exact List.mem_append_left _
            (List.mem_cons_of_mem _ (List.mem_cons_self _ _))
      · have hboth := ih pre k v hmem hleaf
        simp only [flattenFields]
        exact ⟨List.mem_append_right _ hboth.1, List.mem_append_right _ hboth.2⟩

/-- The concrete object of the C9 counterexample: two branches whose leaves
share the bare key `x`. -/
def c9obj : Json :=
  .jobj [("a", .jobj [("x", .jnum 1)]), ("b", .jobj [("x", .jnum 2)])]

/-- C9 counterexample: flattening `{a:{x:1}, b:{x:2}}` records the leaf
`(x, 1)` (path `a.x`), but the bare key `x` reads back `2` while the dotted
path `a.x` reads back `1` — the two accesses disagree. -/
theorem c9_counterexample :
    flattenResult (fun _ => none) 1 c9obj "" =
      [("x", .jnum 1), ("a.x", .jnum 1), ("x", .jnum 2), ("b.x", .jnum 2)] ∧
    readBack (flattenResult (fun _ => none) 1 c9obj "") "x" = some (.jnum 2) ∧
    readBack (flattenResult (fun _ => none) 1 c9obj "") "a.x" = some (.jnum 1) ∧
    Json.jnum 1 ≠ Json.jnum 2 := by
  have hflat : flattenResult (fun _ => none) 1 c9obj "" =
      [("x", .jnum 1), ("a.x", .jnum 1), ("x", .jnum 2), ("b.x", .jnum 2)] := by
    simp [c9obj, flattenResult, flattenFields, lookupKey, List.find?, Json.isLeaf]
  refine ⟨hflat, by rw [hflat]; rfl, by rw [hflat]; rfl, ?_⟩
  intro h
  injection h with h2
  exact absurd h2 (by decide)

/-- C9 amended: every leaf `(k, v)` of a flattened object (no `content`
envelope in the way) is recorded under both its bare key and its full
dotted path; and whenever neither of those two keys is also written with a
different value, reading back through either key yields the leaf's value —
the original unconditional agreement fails exactly when another leaf
shares a key (see the counterexample). -/
theorem c9_amended (parseAny : Json → Option Json) (fuel : Nat)
    (fields : List (String × Json)) (pre k : String) (v : Json)
    (hnc : ∀ items, lookupKey fields "content" ≠ some (.jarr items))
    (hmem : (k, v) ∈ fields) (hleaf : v.isLeaf = true) :
    ((k, v) ∈ flattenResult parseAny fuel (.jobj fields) pre ∧
     ((if pre == "" then k else pre ++ "." ++ k), v) ∈
       flattenResult parseAny fuel (.jobj fields) pre) ∧
    ((∀ v2, (k, v2) ∈ flattenResult parseAny fuel (.jobj fields) pre → v2 = v) →
     (∀ v2, ((if pre == "" then k else pre ++ "." ++ k), v2) ∈
        flattenResult parseAny fuel (.jobj fields) pre → v2 = v) →
      readBack (flattenResult parseAny fuel (.jobj fields) pre) k = some v ∧
      readBack (flattenResult parseAny fuel (.jobj fields) pre)
        (if pre == "" then k else pre ++ "." ++ k) = some v) := by
  rw [flattenResult_no_content parseAny fuel fields pre hnc]
  have hboth := flattenFields_mem_leaf parseAny fuel fields pre k v hmem hleaf
  refine ⟨hboth, fun hu1 hu2 => ⟨?_, ?_⟩⟩
  · exact readBack_of_unique _ _ _ hboth.1 hu1
  · exact readBack_of_unique _ _ _ hboth.2 hu2

/-- Witness for C9 amended at `{y:"s"}` flattened under the prefix `p`:
both reads return the leaf value. -/
theorem c9_amended_witness :
    readBack (flattenResult (fun _ => none) 1 (.jobj [("y", .jstr "s")]) "p")
      "y" = some (.jstr "s") ∧
    readBack (flattenResult (fun _ => none) 1 (.jobj [("y", .jstr "s")]) "p")
      "p.y" = some (.jstr "s") := by
  have hflat : flattenResult (fun _ => none) 1 (.jobj [("y", .jstr "s")]) "p" =
      [("y", .jstr "s"), ("p.y", .jstr "s")] := by
    simp [flattenResult, flattenFields, lookupKey, List.find?, Json.isLeaf]
  have huniq : ∀ v2, (("y" : String), v2) ∈
      flattenResult (fun _ => none) 1 (.jobj [("y", .jstr "s")]) "p" →
      v2 = Json.jstr "s" := by
    intro v2 hv
    rw [hflat] at hv
    rcases List.mem_cons.mp hv with h1 | hv2
    · rw [Prod.mk.injEq] at h1
      exact h1.2
    · rcases List.mem_cons.mp hv2 with h2 | h3
      · rw [Prod.mk.injEq] at h2
        exact absurd h2.1 (by decide)
      · exact absurd h3 (List.not_mem_nil _)
  have huniq2 : ∀ v2, (("p.y" : String), v2) ∈
      flattenResult (fun _ => none) 1 (.jobj [("y", .jstr "s")]) "p" →
      v2 = Json.jstr "s" := by
    intro v2 hv
    rw [hflat] at hv
    rcases List.mem_cons.mp hv with h1 | hv2
    · rw [Prod.mk.injEq] at h1
      exact absurd h1.1 (by decide)
    · rcases List.mem_cons.mp hv2 with h2 | h3
      · rw [Prod.mk.injEq] at h2
        exact h2.2
      · exact absurd h3 (List.not_mem_nil _)
  have h := (c9_amended (fun _ => none) 1 [("y", .jstr "s")] "p" "y" (.jstr "s")
    (fun items hitems => by
      exact Option.noConfusion (show (none : Option Json) = some (.jarr items) from hitems))
    (List.mem_cons_self _ _) rfl).2
    (by simpa using huniq) (by simpa using huniq2)
  simpa using h

/-- The tool of the C7 counterexample: one required parameter `zzz` that no
context value mentions. -/
def c7toolZ : ToolInfo := { name := "toolZ", required := some ["zzz"] }

/-- The context of the C7 counterexample: one object value whose
serialization contains `"id"` but not `"zzz"`. -/
def c7ctx : List (String × Json) := [("t", .jobj [("id", .jnum 1)])]

/-- C7 counterexample: on a parse failure, with no zero-parameter tool and
with `toolZ`'s only required name `zzz` absent from the only context
value's serialization, the claim demands `tool = null` — but the code's
fallback selects `toolZ`, because its substring test also passes whenever
the serialization merely contains `"id"` or `"cloudId"`. -/
theorem c7_counterexample :
    selectNextTool [c7toolZ] [] c7ctx 0 10 (.error ()) =
      { tool := some "toolZ",
        reason := "Fallback: params likely available in context" } ∧
    requiredOf c7toolZ = ["zzz"] ∧
    strIncludes (jsonStringify (.jobj [("id", .jnum 1)])) "zzz" = false ∧
    strIncludes (jsonStringify (.jobj [("id", .jnum 1)])) "id" = true ∧
    c7ctx = [("t", .jobj [("id", .jnum 1)])] :=
  ⟨by decide, by decide, by decide, by decide, rfl⟩

/-- C7 amended: on a parse failure (depth not exhausted, some tool
unexecuted) `selectNextTool` returns the fallback: an unexecuted tool with
an empty required list if one exists; otherwise an unexecuted tool each of
whose required names passes the context test `paramInContext` (some context
value is an object whose serialization contains the name, or `"cloudId"`,
or `"id"` as a substring); otherwise a null tool. -/
theorem c7_amended (tools : List ToolInfo) (executed : List String)
    (ctx : List (String × Json)) (d m : Int) (hd : d < m)
    (hne : tools.filter (fun t => !(executed.contains t.name)) ≠ []) :
    ((∃ t ∈ tools.filter (fun t => !(executed.contains t.name)),
        requiredOf t = []) →
      ∃ t ∈ tools.filter (fun t => !(executed.contains t.name)),
        requiredOf t = [] ∧
        selectNextTool tools executed ctx d m (.error ()) =
          { tool := some t.name, reason := "Fallback: no parameters required" }) ∧
    ((∀ t ∈ tools.filter (fun t => !(executed.contains t.name)),
        requiredOf t ≠ []) →
      ((∃ t ∈ tools.filter (fun t => !(executed.contains t.name)),
          ∀ p ∈ requiredOf t, paramInContext ctx p = true) →
        ∃ t ∈ tools.filter (fun t => !(executed.contains t.name)),
          (∀ p ∈ requiredOf t, paramInContext ctx p = true) ∧
          selectNextTool tools executed ctx d m (.error ()) =
            { tool := some t.name,
              reason := "Fallback: params likely available in context" }) ∧
      ((∀ t ∈ tools.filter (fun t => !(executed.contains t.name)),
          ¬∀ p ∈ requiredOf t, paramInContext ctx p = true) →
        selectNextTool tools executed ctx d m (.error ()) =
          { tool := none, reason := "No suitable tool found in fallback" })) := by
  have hsel : selectNextTool tools executed ctx d m (.error ()) =
      fallbackToolSelection (tools.filter fun t => !(executed.contains t.name)) ctx := by
    unfold selectNextTool
    rw [if_neg (not_le.mpr hd), if_neg ?_]
    intro hemp
    exact hne (List.isEmpty_iff.mp hemp)
  rw [hsel]
  cases hf1 : (tools.filter fun t => !(executed.contains t.name)).find?
      (fun t => (requiredOf t).isEmpty) with
  | some t0 =>
    have hmem0 := List.mem_of_find?_eq_some hf1
    have hemp0 : (requiredOf t0).isEmpty = true :=
      @List.find?_some _ (fun t => (requiredOf t).isEmpty) t0 _ hf1
    have hempty0 : requiredOf t0 = [] := List.isEmpty_iff.mp hemp0
    constructor
    · intro _
      refine ⟨t0, hmem0, hempty0, ?_⟩
      simp only [fallbackToolSelection, hf1]
    · intro hall
      exact absurd hempty0 (hall t0 hmem0)
  | none =>
    have hno : ∀ t ∈ tools.filter (fun t => !(executed.contains t.name)),
        requiredOf t ≠ [] := by
      intro t ht h
      have hp := List.find?_eq_none.mp hf1 t ht
      rw [h] at hp
      exact hp rfl
    constructor
    · intro hex
      obtain ⟨t, ht, hreq⟩ := hex
      exact absurd hreq (hno t ht)
    · intro _
      cases hf2 : (tools.filter fun t => !(executed.contains t.name)).find?
          (fun t => (requiredOf t).all (paramInContext ctx)) with
      | some t1 =>
        have hmem1 := List.mem_of_find?_eq_some hf2
        have hallb : (requiredOf t1).all (paramInContext ctx) = true :=
          @List.find?_some _ (fun t => (requiredOf t).all (paramInContext ctx)) t1 _ hf2
        have hall1 : ∀ p ∈ requiredOf t1, paramInContext ctx p = true :=
          List.all_eq_true.mp hallb
        constructor
        · intro _
          refine ⟨t1, hmem1, hall1, ?_⟩
          simp only [fallbackToolSelection, hf1, hf2]
        · intro hnall
          exact absurd hall1 (hnall t1 hmem1)
      | none =>
        constructor
        · intro hex
          obtain ⟨t, ht, hp⟩ := hex
          have := List.find?_eq_none.mp hf2 t ht
          exact absurd (List.all_eq_true.mpr hp) this
        · intro _
          simp only [fallbackToolSelection, hf1, hf2]

/-- Witness for C7 amended: a parameterless unexecuted tool is picked by the
first fallback tier. -/
theorem c7_amended_witness :
    selectNextTool [{ name := "toolA" }] [] [] 0 10 (.error ()) =
      { tool := some "toolA", reason := "Fallback: no parameters required" } := by
  have h := (c7_amended [{ name := "toolA" }] [] [] 0 10 (by decide) (by decide)).1
    ⟨{ name := "toolA" }, by decide, rfl⟩
  obtain ⟨t, ht, hreq, heq⟩ := h
  have ht2 : t = { name := "toolA" } := by
    have hm := List.mem_filter.mp ht
    rw [List.mem_singleton] at hm
    exact hm.1
  rw [heq, ht2]

/-- The proxy state of the C5 counterexample: both sides open, empty
correlation table. -/
def c5state : ProxyState := ⟨false, false, []⟩

/-- The failing request of the C5 counterexample. -/
def c5req : RpcMsg :=
  .request (.num 42) "tools/call" (some (.jobj [("name", .jstr "doThing")]))

/-- C5 counterexample: when forwarding request 42 fails with `ECONNRESET`
and the client is open, the synthesized `-32001` error response does reach
the client — but the correlation table still retains entry 42, against the
claim that it does not. -/
theorem c5_counterexample :
    (onClientMessage c5state c5req (some ⟨"ECONNRESET", .jstr "ECONNRESET"⟩)).2.1 =
      [.errorResponse (.num 42) (-32001) "ECONNRESET" (.jstr "ECONNRESET")] ∧
    lookupKey (onClientMessage c5state c5req
        (some ⟨"ECONNRESET", .jstr "ECONNRESET"⟩)).1.pending (.num 42) =
      some ⟨"tools/call", some "doThing"⟩ :=
  ⟨rfl, rfl⟩

/-- C5 amended: a failed forward of a request over an open client connection
synthesizes `{jsonrpc:"2.0", id, error:{code:-32001, message, data}}` back to
the client with the request's id and the send error's message; nothing is
forwarded to the server; and the correlation table still holds the entry
recorded for that request id (it is only removed by a matching response or
a close). -/
theorem c5_amended (st : ProxyState) (id : RpcId) (method : String)
    (params : Option Json) (e : SendErr) (hopen : st.clientClosed = false) :
    (onClientMessage st (.request id method params) (some e)).2.1 =
      [.errorResponse id (-32001) e.message e.asJson] ∧
    (onClientMessage st (.request id method params) (some e)).2.2 = [] ∧
    lookupKey (onClientMessage st (.request id method params) (some e)).1.pending
      id = some ⟨method, toolNameOf method params⟩ := by
  unfold onClientMessage
  simp only [hopen, Bool.not_false, if_true]
  exact ⟨trivial, trivial, lookupKey_setKey_self _ _ _⟩

theorem depthFoldStep_fst (g : GraphState) (td : List (String × Int))
    (acc : Int × List (String × String)) (p : String × String) :
    (depthFoldStep g td acc p).1 =
      max acc.1 ((lookupKey td (splitDotHead p.2)).getD 0) := by
  simp only [depthFoldStep]
  cases h : getToolNodeId g (splitDotHead p.2) with
  | none => rfl
  | some v => rfl

theorem depthFold_fst_aux (g : GraphState) (td : List (String × Int))
    (srcs : List (String × String)) :
    ∀ acc : Int × List (String × String),
      (srcs.foldl (depthFoldStep g td) acc).1 =
        (srcs.map (fun p => (lookupKey td (splitDotHead p.2)).getD 0)).foldl
          max acc.1 := by
  induction srcs with
  | nil => intro acc; rfl
  | cons p rest ih =>
    intro acc
    rw [List.foldl_cons, List.map_cons, List.foldl_cons, ih (depthFoldStep g td acc p),
      depthFoldStep_fst]

/-- The first component of the depth fold is the maximum recorded source
depth (0 for unknown source tools, and 0 when there are no sources). -/
theorem depthFold_fst (g : GraphState) (td : List (String × Int))
    (srcs : List (String × String)) :
    (depthFold g td srcs).1 =
      (srcs.map (fun p => (lookupKey td (splitDotHead p.2)).getD 0)).foldl max 0 :=
  depthFold_fst_aux g td srcs ((0 : Int), [])

theorem addPendingTool_lookup (g : GraphState) (tn : String) (now : Nat) :
    lookupKey (addPendingTool g tn now).2.nodes (addPendingTool g tn now).1 =
      some { id := "tool_" ++ tn ++ "_" ++ toString now, type := "tool",
             name := tn, data := [], timestamp := now, status := "pending" } := by
  unfold addPendingTool
  exact lookupKey_setKey_self _ _ _

theorem markToolSkipped_status (g : GraphState) (nid r : String)
    (mp : List String) (n : ResourceNode) (hn : lookupKey g.nodes nid = some n) :
    (lookupKey (markToolSkipped g nid r mp).nodes nid).map (fun n2 => n2.status) =
      some "skipped" := by
  unfold markToolSkipped
  rw [hn]
  simp only [lookupKey_setKey_self]
  rfl

/-- C1: past the confidence guard, the iteration records the tool's depth
as one plus the maximum recorded depth of its source tools (the token
before the first `.` of each source label, 0 for unknown tools, default 0
without sources), once under the tool's name; and when that depth exceeds
`maxDepth`, the tool is flagged with reason `"Exceeds max depth (X > Y)"`,
its graph node is marked skipped, one `tool_skipped` event is emitted, and
the tool-call function is not invoked. -/
theorem c1_depth_rule (env : IterEnv) (st : OrchState) (toolName : String)
    (toolInfo : ToolInfo)
    (hsel : env.sel.tool = some toolName)
    (hfresh : st.executedTools.contains toolName = false)
    (hfind : st.toolsDiscovered.find? (fun t => t.name == toolName) = some toolInfo)
    (hguard : (!(env.ext.missingParams.getD []).isEmpty &&
      decide (env.ext.confidence.getD 0 < 1/2)) = false) :
    ((loopIter env st).1.toolDepths = setKey st.toolDepths toolInfo.name
      (((env.ext.sources.getD []).map
        (fun p => (lookupKey st.toolDepths (splitDotHead p.2)).getD 0)).foldl
          max 0 + 1)) ∧
    (st.maxDepth < ((env.ext.sources.getD []).map
        (fun p => (lookupKey st.toolDepths (splitDotHead p.2)).getD 0)).foldl
          max 0 + 1 →
      (loopIter env st).1.flaggedTools = st.flaggedTools ++
        [{ toolName := toolInfo.name, missingParams := [],
           reason := depthReason (((env.ext.sources.getD []).map
             (fun p => (lookupKey st.toolDepths (splitDotHead p.2)).getD 0)).foldl
               max 0 + 1) st.maxDepth,
           nodeId := "tool_" ++ toolInfo.name ++ "_" ++ toString env.now }] ∧
      (lookupKey (loopIter env st).1.graph.nodes
        ("tool_" ++ toolInfo.name ++ "_" ++ toString env.now)).map
          (fun n => n.status) = some "skipped" ∧
      (loopIter env st).2.1 =
        [{ type := "tool_skipped",
           data := .jobj [("tool", .jstr toolInfo.name),
                          ("reason", .jstr "Exceeds max depth")],
           timestamp := env.now }] ∧
      (loopIter env st).2.2 = .cont) := by
  unfold loopIter
  rw [hsel]
  simp only [hfresh, Bool.false_eq_true, if_false, hfind, hguard, depthFold_fst]
  constructor
  · split
    · rfl
    · cases env.callResult with
      | ok r => rfl
      | error m => rfl
  · intro hdeep
    rw [if_pos hdeep]
    refine ⟨rfl, ?_, rfl, rfl⟩
    exact markToolSkipped_status _ _ _ _ _ (addPendingTool_lookup st.graph toolInfo.name env.now)

/-- The S3-style state for the orchestrator witnesses: tools `A` and `B`
executed at depths 1 and 2, `maxDepth = 2`, tool `C` still to run. -/
def c1st : OrchState :=
  { status := .running, toolsDiscovered := [{ name := "C", required := some ["x"] }],
    executionHistory := [], currentStep := 0, currentDepth := 2, maxDepth := 2,
    flaggedTools := [], startTime := some 0, endTime := none, error := none,
    aborted := false, graph := GraphState.empty, executedTools := ["A", "B"],
    toolDepths := [("A", 1), ("B", 2)] }

/-- The iteration environment for the C1 witness: the LLM picks `C` with a
parameter sourced from `B.id` and full confidence. -/
def c1env : IterEnv :=
  { sel := ⟨some "C", "next"⟩,
    ext := { params := some [], sources := some [("x", "B.id")],
             confidence := some 1, missingParams := some [] },
    callResult := .ok .jnull, now := 5, parseAny := fun _ => none, fuel := 1 }

/-- Witness for C1 at the S3 scenario: `C` sourced from `B` (depth 2) gets
depth 3 > 2 and is flagged with reason `"Exceeds max depth (3 > 2)"`
without being invoked. -/
theorem c1_depth_rule_witness :
    (loopIter c1env c1st).1.flaggedTools =
      [{ toolName := "C", missingParams := [],
         reason := "Exceeds max depth (3 > 2)", nodeId := "tool_C_5" }] ∧
    (loopIter c1env c1st).2.2 = .cont := by
  have h := c1_depth_rule c1env c1st "C" { name := "C", required := some ["x"] }
    rfl (by decide) (by decide) (by decide)
  have h2 := h.2 (by decide)
  refine ⟨?_, h2.2.2.2⟩
  rw [h2.1]
  decide

/-- C6: an extraction with missing parameters and confidence below 0.5
flags the tool with reason `"Could not resolve required parameters from
available context"`, marks its node skipped, emits one `tool_skipped`
event and does not invoke the tool; an extraction with confidence 0.6 does
not trigger this guard, and (when the depth bound also passes) the tool is
invoked, starting with a `tool_start` event. -/
theorem c6_confidence_rule (env : IterEnv) (st : OrchState) (toolName : String)
    (toolInfo : ToolInfo)
    (hsel : env.sel.tool = some toolName)
    (hfresh : st.executedTools.contains toolName = false)
    (hfind : st.toolsDiscovered.find? (fun t => t.name == toolName) = some toolInfo) :
    ((env.ext.missingParams.getD []) ≠ [] → env.ext.confidence.getD 0 < 1/2 →
      (loopIter env st).1.flaggedTools = st.flaggedTools ++
        [{ toolName := toolInfo.name,
           missingParams := env.ext.missingParams.getD [],
           reason := "Could not resolve required parameters from available context",
           nodeId := "tool_" ++ toolInfo.name ++ "_" ++ toString env.now }] ∧
      (lookupKey (loopIter env st).1.graph.nodes
        ("tool_" ++ toolInfo.name ++ "_" ++ toString env.now)).map
          (fun n => n.status) = some "skipped" ∧
      (loopIter env st).2.1 =
        [{ type := "tool_skipped",
           data := .jobj [("tool", .jstr toolInfo.name),
                          ("missingParams",
                           .jarr ((env.ext.missingParams.getD []).map .jstr))],
           timestamp := env.now }] ∧
      (loopIter env st).2.2 = .cont) ∧
    (env.ext.confidence = some ((3 : ℚ)/5) →
      ¬(st.maxDepth < ((env.ext.sources.getD []).map
        (fun p => (lookupKey st.toolDepths (splitDotHead p.2)).getD 0)).foldl
          max 0 + 1) →
      (loopIter env st).2.2 = .ran ∧
      (loopIter env st).2.1.head? =
        some { type := "tool_start",
               data := .jobj [("tool", .jstr toolInfo.name),
                              ("params", .jobj (env.ext.params.getD [])),
                              ("depth", .jnum (((env.ext.sources.getD []).map
                                (fun p => (lookupKey st.toolDepths
                                  (splitDotHead p.2)).getD 0)).foldl max 0 + 1))],
               timestamp := env.now }) := by
  constructor
  · intro hmiss hconf
    have hie : (env.ext.missingParams.getD []).isEmpty = false := by
      cases hie2 : (env.ext.missingParams.getD []).isEmpty with
      | true => exact absurd (List.isEmpty_iff.mp hie2) hmiss
      | false => rfl
    have hg : (!(env.ext.missingParams.getD []).isEmpty &&
        decide (env.ext.confidence.getD 0 < 1/2)) = true := by
      rw [hie, decide_eq_true hconf, Bool.not_false, Bool.true_and]
    unfold loopIter
    rw [hsel]
    simp only [hfresh, Bool.false_eq_true, if_false, hfind, hg, if_true]
    refine ⟨?_, ?_, ?_, ?_⟩
    · trivial
    · exact markToolSkipped_status _ _ _ _ _
        (addPendingTool_lookup st.graph toolInfo.name env.now)
    · trivial
    · trivial
  · intro hconf hdeep
    have hp : ¬(((some ((3 : ℚ)/5)).getD 0) < 1/2) := by
      simp only [Option.getD_some]
      norm_num
    have hd : (decide (((some ((3 : ℚ)/5)).getD 0) < 1/2)) = false :=
      decide_eq_false hp
    have hg : (!(env.ext.missingParams.getD []).isEmpty &&
        decide (env.ext.confidence.getD 0 < 1/2)) = false := by
      rw [hconf, hd, Bool.and_false]
    unfold loopIter
    rw [hsel]
    simp only [hfresh, Bool.false_eq_true, if_false, hfind, hg, depthFold_fst]
    rw [if_neg hdeep]
    cases env.callResult with
    | ok r => exact ⟨rfl, rfl⟩
    | error m => exact ⟨rfl, rfl⟩

/-- Environment for the C6 witness, low confidence: missing `x` at
confidence 0.2. -/
def c6envLow : IterEnv :=
  { sel := ⟨some "C", "r"⟩,
    ext := { params := some [], sources := some [],
             confidence := some ((1 : ℚ)/5), missingParams := some ["x"] },
    callResult := .ok .jnull, now := 7, parseAny := fun _ => none, fuel := 1 }

/-- Environment for the C6 witness, confidence 0.6: same missing `x`. -/
def c6envHigh : IterEnv :=
  { sel := ⟨some "C", "r"⟩,
    ext := { params := some [], sources := some [],
             confidence := some ((3 : ℚ)/5), missingParams := some ["x"] },
    callResult := .ok .jnull, now := 7, parseAny := fun _ => none, fuel := 1 }

/-- Witness for C6 at the S4 scenario: confidence 0.2 with missing `x`
flags and skips; confidence 0.6 with the same missing list runs the tool. -/
theorem c6_confidence_rule_witness :
    (loopIter c6envLow c1st).1.flaggedTools =
      [{ toolName := "C", missingParams := ["x"],
         reason := "Could not resolve required parameters from available context",
         nodeId := "tool_C_7" }] ∧
    (loopIter c6envLow c1st).2.2 = .cont ∧
    (loopIter c6envHigh c1st).2.2 = .ran := by
  have hlow := (c6_confidence_rule c6envLow c1st "C"
    { name := "C", required := some ["x"] } rfl (by decide) (by decide)).1
    (by decide) (show ((1 : ℚ)/5) < 1/2 by norm_num)
  have hhigh := (c6_confidence_rule c6envHigh c1st "C"
    { name := "C", required := some ["x"] } rfl (by decide) (by decide)).2
    rfl (by decide)
  refine ⟨?_, hlow.2.2.2, hhigh.1⟩
  rw [hlow.1]
  decide

/-- A completed execution step recorded before the stop of the C4
scenario. -/
def c4step : ExecutionStep :=
  { toolName := "A", nodeId := "tool_A_1", parameters := [],
    parameterSources := [], status := "completed", result := some .jnull,
    error := none, timestamp := 1, depth := 1 }

/-- The running state of the C4 scenario: tool `A` already executed. -/
def c4st : OrchState :=
  { status := .running, toolsDiscovered := [{ name := "A" }],
    executionHistory := [c4step], currentStep := 0, currentDepth := 1,
    maxDepth := 10, flaggedTools := [], startTime := some 0, endTime := none,
    error := none, aborted := false, graph := GraphState.empty,
    executedTools := ["A"], toolDepths := [("A", 1)] }

/-- C4 counterexample: `stop()` does set status to idle and `endTime`, but
when the suspended loop resumes it exits through the normal completion
path, emitting a further `agent_complete` event and overwriting the status
with `completed` — so "no further events are emitted" and "the status
stays idle" both fail. -/
theorem c4_counterexample :
    (stopAgent c4st 5).1.status = .idle ∧
    (stopAgent c4st 5).1.endTime = some 5 ∧
    (loopContinue [] (stopAgent c4st 5).1 6).2 =
      [{ type := "agent_complete",
         data := .jobj [("totalTools", .jnum 1), ("flagged", .jnum 0),
                        ("duration", .jnum 6)],
         timestamp := 6 }] ∧
    (loopContinue [] (stopAgent c4st 5).1 6).1.status = .completed ∧
    AgentStatus.completed ≠ AgentStatus.idle :=
  ⟨rfl, rfl, rfl, rfl, by decide⟩

/-- C4 amended: `stop()` during a run moves the status to idle, sets
`endTime`, emits only the idle `status_change`, and retains the execution
history; the loop, observing the stop at its next boundary, consumes no
further iteration (no tool events for any pending iterations) — but it then
runs the completion epilogue: one final `agent_complete` event is emitted
and the status becomes `completed`, the history still retained. -/
theorem c4_amended (st : OrchState) (t t2 : Nat) (h : st.status = .running) :
    (stopAgent st t).1.status = .idle ∧
    (stopAgent st t).1.endTime = some t ∧
    (stopAgent st t).1.executionHistory = st.executionHistory ∧
    (stopAgent st t).2 =
      [{ type := "status_change", data := .jobj [("status", .jstr "idle")],
         timestamp := t }] ∧
    (∀ envs, runIters envs (stopAgent st t).1 = ((stopAgent st t).1, [])) ∧
    (loopContinue [] (stopAgent st t).1 t2).1.status = .completed ∧
    (loopContinue [] (stopAgent st t).1 t2).1.executionHistory =
      st.executionHistory ∧
    (loopContinue [] (stopAgent st t).1 t2).2 =
      [{ type := "agent_complete",
         data := .jobj [("totalTools", .jnum st.executedTools.length),
                        ("flagged", .jnum st.flaggedTools.length),
                        ("duration",
                         .jnum ((t2 : Int) - ((st.startTime.getD 0 : Nat) : Int)))],
         timestamp := t2 }] := by
  refine ⟨rfl, rfl, rfl, rfl, ?_, rfl, rfl, rfl⟩
  intro envs
  cases envs with
  | nil => rfl
  | cons e rest =>
    simp only [runIters]
    rw [if_neg (by simp [stopAgent])]

/-- Witness for C4 amended: the stopped S5-style state consumes no pending
iteration. -/
theorem c4_amended_witness :
    (stopAgent c4st 5).1.status = .idle ∧
    runIters [c1env] (stopAgent c4st 5).1 = ((stopAgent c4st 5).1, []) :=
  ⟨(c4_amended c4st 5 6 rfl).1, (c4_amended c4st 5 6 rfl).2.2.2.2.1 [c1env]⟩

/-- Witness for C5 amended at the concrete `ECONNRESET` scenario. -/
theorem c5_amended_witness :
    (onClientMessage c5state c5req (some ⟨"ECONNRESET", .jstr "ECONNRESET"⟩)).2.2 = [] ∧
    lookupKey (onClientMessage c5state c5req
        (some ⟨"ECONNRESET", .jstr "ECONNRESET"⟩)).1.pending (.num 42) =
      some ⟨"tools/call", some "doThing"⟩ := by
  have h := c5_amended c5state (.num 42) "tools/call"
    (some (.jobj [("name", .jstr "doThing")])) ⟨"ECONNRESET", .jstr "ECONNRESET"⟩ rfl
  exact ⟨h.2.1, h.2.2⟩

end MCPInspector
